import Mathlib

/-! The `Config` object of environmentalist, `src/index.js`.

A shallow embedding of the configuration resolver and of its read accessors.

Modelling conventions.

* A JavaScript value is a `JsValue`.  Numbers are the integer-valued doubles
  (`num`) and positive infinity (`inf`), the only numbers the program can
  itself produce; a function value is named by an identifier and run through
  a table of host functions (`FnTable`).
* An object used as a mapping (`values`, `env`, the internal `config`) is an
  association list from own property names to values (`Obj`); reading is
  `List.lookup`, so the first binding of a name is the property.  The list
  of `values` is in the order of `Object.keys`.
* The internal `config` is a plain object: next to its own properties it has
  a prototype (`PlainObject`), and an assignment `config[key] = v` goes
  through the prototype chain (`assign`): the name `__proto__` reaches the
  accessor of `Object.prototype`, which stores nothing.  A function value is
  an ordinary function object with the standard properties only.
* The environment mapping holds strings, as `process.env` does.
* `String.prototype.toUpperCase` depends on the Unicode case tables; it is a
  parameter `toUpperCase` of the constructor.  `asciiUpper` is its action on
  ASCII text.
-/

namespace Environmentalist

/-! ## Values and objects -/

/-- JavaScript values that the program stores, produces and returns. -/
inductive JsValue where
  | undefined
  | null
  | bool (b : Bool)
  | num (n : Int)
  | inf
  | str (s : String)
  | fn (id : Nat)
  deriving DecidableEq, Repr

deriving instance DecidableEq for Except

/-- An object seen as a mapping from own property names to values. -/
abbrev Obj (α : Type) := List (String × α)

/-- Source `has(obj, key)` for an object that exists: an own property test. -/
def has {α : Type} (obj : Obj α) (key : String) : Bool :=
  (List.lookup key obj).isSome

/-- Property read `obj[key]`: the own property, `undefined` when there is none. -/
def getProp (obj : Obj JsValue) (key : String) : JsValue :=
  (List.lookup key obj).getD JsValue.undefined

/-- Creation or update of the own data property `key` of an object. -/
def setProp {α : Type} (obj : Obj α) (key : String) (v : α) : Obj α :=
  (key, v) :: obj.filter (fun p => p.1 != key)

/-- Source `Object.keys(obj)`. -/
def keys {α : Type} (obj : Obj α) : List String :=
  obj.map Prod.fst

/-- The prototype of the object `config`: `Object.prototype` when it is created
by `{}`, and `null` or a function once the `__proto__` setter has run. -/
inductive Proto where
  | objectPrototype
  | null
  | function (f : Nat)
  deriving DecidableEq, Repr

/-- The object `config`: its own properties and its prototype. -/
structure PlainObject where
  props : Obj JsValue
  proto : Proto
  deriving DecidableEq, Repr

/-- The setter of the accessor `Object.prototype.__proto__` run on an object:
`null` and an object (here a function) become the prototype, any other value
is ignored.  No own property is created. -/
def setPrototype (o : PlainObject) (v : JsValue) : PlainObject :=
  match v with
  | JsValue.null => PlainObject.mk o.props Proto.null
  | JsValue.fn f => PlainObject.mk o.props (Proto.function f)
  | _ => o

/-- The names an object cannot be assigned when it inherits them from a
function: `name` and `length` are read-only, `caller` and `arguments` are
read-only or accessors that throw. -/
def functionReadOnly : List String :=
  ["name", "length", "caller", "arguments"]

/-- The assignment `config[key] = v` of the source (strict mode).  An own
property is updated.  Otherwise the prototype chain decides: the name
`__proto__` runs the inherited setter unless the prototype is `null`, a
read-only name inherited from a function prototype throws a `TypeError`, and
any other name becomes a new own property. -/
def assign (o : PlainObject) (key : String) (v : JsValue) : Except String PlainObject :=
  if has o.props key then Except.ok (PlainObject.mk (setProp o.props key v) o.proto)
  else
    match o.proto with
    | Proto.null => Except.ok (PlainObject.mk (setProp o.props key v) o.proto)
    | Proto.objectPrototype =>
      if key = "__proto__" then Except.ok (setPrototype o v)
      else Except.ok (PlainObject.mk (setProp o.props key v) o.proto)
    | Proto.function _ =>
      if key = "__proto__" then Except.ok (setPrototype o v)
      else if functionReadOnly.contains key then
        Except.error ("TypeError: Cannot assign to read only property " ++ key)
      else Except.ok (PlainObject.mk (setProp o.props key v) o.proto)

/-! ## Module constants -/

def PRODUCTION : String := "production"
def DEVELOPMENT : String := "development"
def TEST : String := "test"
def INTEGRATION : String := "integration"

/-! ## Coercion of environment strings -/

/-- The regular expression test `/^\d+$/.test(value)` on a string: one or more
ASCII digits and nothing else (no multiline flag, so `$` is the end of input). -/
def isDigits (value : String) : Bool :=
  !value.data.isEmpty && value.data.all Char.isDigit

/-- The mathematical integer read by `parseInt(value, 10)` from a string of
digits: the digits are accumulated left to right. -/
def digitsValue (cs : List Char) : Nat :=
  cs.foldl (fun acc c => 10 * acc + (c.toNat - 48)) 0

/-- Halving loop behind `bitLength`; the first argument bounds the number of
steps. -/
def bitLengthAux : Nat → Nat → Nat
  | 0, _ => 0
  | fuel + 1, n => if n = 0 then 0 else bitLengthAux fuel (n / 2) + 1

/-- Number of binary digits of `n` (0 for 0). -/
def bitLength (n : Nat) : Nat :=
  bitLengthAux n n

/-- Rounding of an integer of 54 binary digits or more to 53 significant
binary digits, to the nearest, ties to the even significand. -/
def roundSignificand (n : Nat) : Nat :=
  let sh := bitLength n - 53
  let q := n / 2 ^ sh
  let r := n % 2 ^ sh
  let half := 2 ^ (sh - 1)
  let q1 := if half < r ∨ (r = half ∧ q % 2 = 1) then q + 1 else q
  q1 * 2 ^ sh

/-- The Number value of a non-negative integer: the integer itself below
`2^53`, otherwise the nearest double, and positive infinity when the rounded
value needs more than 1024 binary digits (from `2^1024 - 2^970` on). -/
def toNumber (n : Nat) : JsValue :=
  if n < 2 ^ 53 then JsValue.num n
  else if 1024 < bitLength (roundSignificand n) then JsValue.inf
  else JsValue.num (roundSignificand n)

/-- Source `parseInt(value, 10)`, on the strings the program passes to it:
those that passed `isDigits`. -/
def parseInt (value : String) : JsValue :=
  toNumber (digitsValue value.data)

/-- Source `coerce(value)`, on an environment string. -/
def coerce (value : String) : JsValue :=
  if value = "true" then JsValue.bool true
  else if value = "false" then JsValue.bool false
  else if isDigits value then parseInt value
  else JsValue.str value

/-- The integer whose base-10 notation is the given digit string, as the sum of
digit times power of ten (the least significant digit is the last character). -/
def decimalValue (s : String) : Nat :=
  Nat.ofDigits 10 (s.data.reverse.map (fun c => c.toNat - 48))

/-! ## Options -/

/-- The `environments` option: one label per role.  A role the caller's object
leaves out reads as `undefined`. -/
structure Environments where
  PRODUCTION : JsValue
  DEVELOPMENT : JsValue
  TEST : JsValue
  INTEGRATION : JsValue
  deriving DecidableEq, Repr

/-- The `options` argument as the caller writes it: a field is `none` when the
object has no such own property. -/
structure Options where
  pfx : Option String
  unprefixed : Option (List String)
  environments : Option Environments
  version : Option String
  deriving DecidableEq, Repr

/-- The second argument of the call of `defaults` in `Config`. -/
structure OptionDefaults where
  pfx : String
  unprefixed : List String
  environments : Environments
  deriving DecidableEq, Repr

/-- The `options` variable of `Config` after `defaults(options, ...)`. -/
structure ResolvedOptions where
  pfx : String
  unprefixed : List String
  environments : Environments
  version : Option String
  deriving DecidableEq, Repr

/-- Source `defaults(obj, def)`: every own property of `obj` is kept, and every
key of `def` that `obj` lacks (or all of them when `obj` is missing) takes the
value of `def`.  `has(obj, key)` is `!!obj && hasOwnProperty`, here a field
that is `some` of an `obj` that is `some`. -/
def defaults (obj : Option Options) (d : OptionDefaults) : ResolvedOptions :=
  ResolvedOptions.mk
    (match obj.bind Options.pfx with
      | some p => p
      | none => d.pfx)
    (match obj.bind Options.unprefixed with
      | some u => u
      | none => d.unprefixed)
    (match obj.bind Options.environments with
      | some e => e
      | none => d.environments)
    (obj.bind Options.version)

/-- The literal defaults of `Config`. -/
def configDefaults : OptionDefaults :=
  OptionDefaults.mk "" ["PORT", "NODE_ENV"]
    (Environments.mk (JsValue.str PRODUCTION) (JsValue.str DEVELOPMENT)
      (JsValue.str TEST) (JsValue.str INTEGRATION))

/-! ## Construction -/

/-- Source `prefix(key)`, the inner function of `Config`: the name under which
`key` is looked up in the environment. -/
def prefixKey (toUpperCase : String → String) (options : ResolvedOptions)
    (key : String) : String :=
  let isUnprefixed := options.unprefixed.contains key
  let prefixed :=
    if options.pfx ≠ "" then toUpperCase options.pfx ++ "_" ++ key else key
  if isUnprefixed then key else prefixed

/-- The expression `has(env, name) ? coerce(env[name]) : null`. -/
def envValue (env : Obj String) (name : String) : JsValue :=
  match List.lookup name env with
  | some s => coerce s
  | none => JsValue.null

/-- First loop of `Config`: "Extract the unprefixed keys".  The loop stops at
the first assignment that throws. -/
def extractUnprefixed (env : Obj String) (unprefixed : List String)
    (config : PlainObject) : Except String PlainObject :=
  unprefixed.foldlM (fun config key => assign config key (envValue env key)) config

/-- The value the second loop stores under `key`. -/
def defaultValue (toUpperCase : String → String) (options : ResolvedOptions)
    (values : Obj JsValue) (env : Obj String) (key : String) : JsValue :=
  let envVar := prefixKey toUpperCase options key
  let v := envValue env envVar
  if v ≠ JsValue.null then v else getProp values key

/-- Second loop of `Config`: "Extract the default keys". -/
def extractDefaults (toUpperCase : String → String) (options : ResolvedOptions)
    (values : Obj JsValue) (env : Obj String) (config : PlainObject) :
    Except String PlainObject :=
  (keys values).foldlM
    (fun config key => assign config key (defaultValue toUpperCase options values env key))
    config

/-- A constructed `Config`: the own properties of the closure variable `config`
(the methods read own properties only), the closure variable `options`, the
four role label properties and the read-only `prefix` property (`pfx`). -/
structure ConfigInstance where
  config : Obj JsValue
  options : ResolvedOptions
  PRODUCTION : JsValue
  DEVELOPMENT : JsValue
  TEST : JsValue
  INTEGRATION : JsValue
  pfx : String
  deriving DecidableEq, Repr

/-- Source `new Config(values, env, options)`: the instance, or the error of an
assignment that throws.  `env` and `options` may be left out.  The statement
`options.unprefixed.concat(['PORT', 'NODE_ENV'])` builds a new array and drops
it: it changes nothing and has no counterpart here. -/
def Config (toUpperCase : String → String) (values : Obj JsValue)
    (env : Option (Obj String)) (options : Option Options) :
    Except String ConfigInstance :=
  let env := env.getD []
  let options := defaults options configDefaults
  let config : PlainObject := PlainObject.mk [] Proto.objectPrototype
  match extractUnprefixed env options.unprefixed config with
  | Except.error e => Except.error e
  | Except.ok config =>
    match extractDefaults toUpperCase options values env config with
    | Except.error e => Except.error e
    | Except.ok config =>
      Except.ok (ConfigInstance.mk config.props options
        options.environments.PRODUCTION options.environments.DEVELOPMENT
        options.environments.TEST options.environments.INTEGRATION
        options.pfx)

/-! ## Accessors -/

/-- The functions that may occur as values: a function value `fn id` called
with the instance either returns a value or throws. -/
abbrev FnTable := Nat → ConfigInstance → Except String JsValue

/-- Source `get(key, fallback)` called as a method of `self`.  `fallback` is
`none` for a call with one argument and `some fb` for a call with two. -/
def get (call : FnTable) (self : ConfigInstance) (key : String)
    (fallback : Option JsValue) : Except String JsValue :=
  let hasKey := has self.config key
  let hasFallback := fallback.isSome
  let value := if hasKey then getProp self.config key else fallback.getD JsValue.undefined
  if !hasKey && !hasFallback then
    Except.error ("Missing config key: " ++ key)
  else
    match value with
    | JsValue.fn f => call f self
    | v => Except.ok v

/-- Strict comparison of the result of `get('NODE_ENV')` with a label. -/
def nodeEnvIs (call : FnTable) (self : ConfigInstance) (label : JsValue) :
    Except String Bool :=
  match get call self "NODE_ENV" none with
  | Except.ok v => Except.ok (decide (v = label))
  | Except.error e => Except.error e

/-- Source `isProduction()`. -/
def isProduction (call : FnTable) (self : ConfigInstance) : Except String Bool :=
  nodeEnvIs call self self.PRODUCTION

/-- Source `isDevelopment()`. -/
def isDevelopment (call : FnTable) (self : ConfigInstance) : Except String Bool :=
  nodeEnvIs call self self.DEVELOPMENT

/-- Source `isTest()`. -/
def isTest (call : FnTable) (self : ConfigInstance) : Except String Bool :=
  nodeEnvIs call self self.TEST

/-- Source `isIntegration()`. -/
def isIntegration (call : FnTable) (self : ConfigInstance) : Except String Bool :=
  nodeEnvIs call self self.INTEGRATION

/-- Source `isTestOrIntegration()`: `isIntegration()` runs only when `isTest()`
returned false. -/
def isTestOrIntegration (call : FnTable) (self : ConfigInstance) : Except String Bool :=
  match isTest call self with
  | Except.ok true => Except.ok true
  | Except.ok false => isIntegration call self
  | Except.error e => Except.error e

/-- Source `version()`: the empty string is falsy too. -/
def version (self : ConfigInstance) : Except String String :=
  match self.options.version with
  | some v =>
    if v = "" then Except.error "Version must be provided when instantiating Config"
    else Except.ok v
  | none => Except.error "Version must be provided when instantiating Config"

/-- ASCII upper-casing: `toUpperCase` on ASCII text. -/
def asciiUpper (s : String) : String :=
  String.mk (s.data.map Char.toUpper)


/-! ## Definitions that follow the specification's words -/

/-- The lookup name of a key as the specification words it: the bare key when
the key is in the unprefixed list or the prefix is empty, otherwise the
upper-cased prefix, an underscore and the key. -/
def lookupName (toUpperCase : String → String) (options : ResolvedOptions)
    (k : String) : String :=
  if k ∈ options.unprefixed ∨ options.pfx = "" then k
  else toUpperCase options.pfx ++ "_" ++ k

/-- A function table for programs without function values. -/
def noFunctions : FnTable :=
  fun _ _ => Except.error "not a function"

/-- The defaults mapping of the test suite (`DEFAULT_CONFIG`). -/
def DEFAULT_CONFIG : Obj JsValue :=
  [("PORT", JsValue.num 4567), ("NODE_ENV", JsValue.str "production"),
   ("DEFAULT_VALUE", JsValue.str "default"), ("IS_TRUE", JsValue.null),
   ("IS_FALSE", JsValue.null), ("NUMBER", JsValue.null)]

/-- The digit string of `2^53 + 1`, the least integer that is not a double. -/
def firstInexact : String := "9007199254740993"

/-- A function table for lazy values: function 0 returns `'callback'`, every
other function returns what `get('B')` gives on the instance it is called with. -/
def sampleFunctions : FnTable :=
  fun id self =>
    if id = 0 then Except.ok (JsValue.str "callback") else get noFunctions self "B" none

/-- The options `{environments: {PRODUCTION: 'prod'}}`: the other three roles
are not properties of the caller's object. -/
def onlyProductionLabel : Options :=
  Options.mk none none
    (some (Environments.mk (JsValue.str "prod") JsValue.undefined JsValue.undefined
      JsValue.undefined))
    none

/-- A method call on an instance. -/
inductive Call where
  | get (key : String) (fallback : Option JsValue)
  | isProduction
  | isDevelopment
  | isTest
  | isIntegration
  | isTestOrIntegration
  | version
  deriving DecidableEq, Repr

/-- One method call as a step on the instance: the instance after the call and
what the call returned.  No method body assigns to the instance or to the
closure variables `config` and `options`. -/
def perform (call : FnTable) (self : ConfigInstance) :
    Call → ConfigInstance × Except String JsValue
  | Call.get key fallback => (self, get call self key fallback)
  | Call.isProduction => (self, (isProduction call self).map JsValue.bool)
  | Call.isDevelopment => (self, (isDevelopment call self).map JsValue.bool)
  | Call.isTest => (self, (isTest call self).map JsValue.bool)
  | Call.isIntegration => (self, (isIntegration call self).map JsValue.bool)
  | Call.isTestOrIntegration => (self, (isTestOrIntegration call self).map JsValue.bool)
  | Call.version => (self, (version self).map JsValue.str)

/-- The instance after a sequence of method calls, failed calls included. -/
def performAll (call : FnTable) : ConfigInstance → List Call → ConfigInstance
  | self, [] => self
  | self, c :: cs => performAll call (perform call self c).1 cs

/-- A defaults mapping with a lazy value under `A_B` (function 1 of
`sampleFunctions`, which reads `B`) next to the plain key `B`. -/
def chainedDefaults : Obj JsValue :=
  [("A_B", JsValue.fn 1), ("B", JsValue.str "x")]

/-- A function table whose every function throws an error with the message of
the missing-key error for `X`. -/
def throwingFunctions : FnTable :=
  fun _ _ => Except.error "Missing config key: X"

/-- The unprefixed list in effect as the specification words it: the
caller-supplied list, or `['PORT', 'NODE_ENV']` when none is supplied. -/
def unprefixedInEffect (options : Option Options) : List String :=
  match options.bind Options.unprefixed with
  | some u => u
  | none => ["PORT", "NODE_ENV"]

/-- Defaults with truthy values, and an environment that overrides each with
a string whose coerced value is falsy. -/
def truthyDefaults : Obj JsValue :=
  [("FLAG", JsValue.bool true), ("COUNT", JsValue.num 5), ("NAME", JsValue.str "x")]

/-- The environment that overrides `truthyDefaults`. -/
def falsyEnv : Obj String :=
  [("FLAG", "false"), ("COUNT", "0"), ("NAME", "")]

/-- The defaults `{PORT: 4567, NODE_ENV: 'production'}`. -/
def portDefaults : Obj JsValue :=
  [("PORT", JsValue.num 4567), ("NODE_ENV", JsValue.str "production")]

/-- Defaults that are strings reading like a number and a boolean. -/
def stringDefaults : Obj JsValue :=
  [("A", JsValue.str "123"), ("B", JsValue.str "true")]

/-- The options `{prefix: 'MYAPP'}`. -/
def myappOptions : Options :=
  Options.mk (some "MYAPP") none none none

/-! ## Lemmas on objects -/

theorem lookup_filter_ne {α : Type} (obj : Obj α) (key k : String) (h : k ≠ key) :
    List.lookup k (obj.filter (fun p => p.1 != key)) = List.lookup k obj := by
  induction obj with
  | nil => rfl
  | cons p rest ih =>
    obtain ⟨a, b⟩ := p
    by_cases ha : a = key
    · subst ha
      have hk : (k == a) = false := by simpa using h
      simp [List.filter, List.lookup, hk, ih]
    · have hne : (a != key) = true := by simpa using ha
      simp only [List.filter, hne, List.lookup]
      rw [ih]

theorem lookup_setProp {α : Type} (obj : Obj α) (key k : String) (v : α) :
    List.lookup k (setProp obj key v) = if k = key then some v else List.lookup k obj := by
  unfold setProp
  by_cases h : k = key
  · subst h
    simp [List.lookup]
  · have hk : (k == key) = false := by simpa using h
    simp only [List.lookup, hk, if_neg h]
    exact lookup_filter_ne obj key k h

theorem lookup_isSome_iff_mem_keys {α : Type} (obj : Obj α) (k : String) :
    (List.lookup k obj).isSome = true ↔ k ∈ keys obj := by
  induction obj with
  | nil => simp [keys]
  | cons p rest ih =>
    obtain ⟨a, b⟩ := p
    by_cases h : k = a
    · subst h
      simp [List.lookup, keys]
    · have hk : (k == a) = false := by simpa using h
      simp only [List.lookup, hk, keys, List.map_cons, List.mem_cons, h, false_or]
      exact ih

/-! ## Lemmas on assignment -/

theorem setPrototype_props (o : PlainObject) (v : JsValue) :
    (setPrototype o v).props = o.props := by
  cases v <;> rfl

/-- After an assignment that does not throw, a name other than `__proto__` is
bound to the assigned value when it is the assigned name and is unchanged
otherwise. -/
theorem lookup_assign (o o1 : PlainObject) (key k : String) (v : JsValue)
    (h : assign o key v = Except.ok o1) (hk : k ≠ "__proto__") :
    List.lookup k o1.props = if k = key then some v else List.lookup k o.props := by
  have hset : ∀ q : Proto, o1 = PlainObject.mk (setProp o.props key v) q →
      List.lookup k o1.props = if k = key then some v else List.lookup k o.props := by
    intro q hq
    rw [hq]
    exact lookup_setProp o.props key k v
  have hproto : key = "__proto__" → o1 = setPrototype o v →
      List.lookup k o1.props = if k = key then some v else List.lookup k o.props := by
    intro hkey hq
    have hne : k ≠ key := by
      rw [hkey]
      exact hk
    rw [hq, setPrototype_props, if_neg hne]
  unfold assign at h
  split at h
  · exact hset _ (Except.ok.inj h).symm
  · split at h
    · exact hset _ (Except.ok.inj h).symm
    · split at h
      · rename_i hkey
        exact hproto hkey (Except.ok.inj h).symm
      · exact hset _ (Except.ok.inj h).symm
    · split at h
      · rename_i hkey
        exact hproto hkey (Except.ok.inj h).symm
      · split at h
        · cases h
        · exact hset _ (Except.ok.inj h).symm

/-- After a loop of assignments that does not throw, a name other than
`__proto__` is bound to its assigned value when the loop ran over it and is
unchanged otherwise. -/
theorem lookup_foldlM_assign (g : String → JsValue) (ks : List String)
    (o o1 : PlainObject) (k : String)
    (h : ks.foldlM (fun c key => assign c key (g key)) o = Except.ok o1)
    (hk : k ≠ "__proto__") :
    List.lookup k o1.props = if k ∈ ks then some (g k) else List.lookup k o.props := by
  induction ks generalizing o with
  | nil =>
    have he : o = o1 := Except.ok.inj h
    simp [he]
  | cons key rest ih =>
    rw [List.foldlM_cons] at h
    cases ha : assign o key (g key) with
    | error e =>
      rw [ha] at h
      cases h
    | ok o2 =>
      rw [ha] at h
      have h2 := ih o2 h
      have h1 := lookup_assign o o2 key k (g key) ha hk
      rw [h2, h1]
      by_cases hm : k ∈ rest
      · simp [hm]
      · by_cases he : k = key
        · subst he
          simp
        · simp [hm, he]

/-- An assignment cannot throw while the prototype is not a function, and it
makes the prototype a function only by assigning a function to `__proto__`. -/
theorem assign_ok (o : PlainObject) (key : String) (v : JsValue)
    (hp : ∀ f, o.proto ≠ Proto.function f)
    (hv : key = "__proto__" → ∀ f, v ≠ JsValue.fn f) :
    ∃ o1, assign o key v = Except.ok o1 ∧ ∀ f, o1.proto ≠ Proto.function f := by
  have hsp : key = "__proto__" → ∀ f, (setPrototype o v).proto ≠ Proto.function f := by
    intro hkey f
    have hvf := hv hkey
    cases v <;> simp_all [setPrototype]
  unfold assign
  split
  · exact ⟨_, rfl, hp⟩
  · split
    · exact ⟨_, rfl, hp⟩
    · split
      · rename_i hkey
        exact ⟨_, rfl, hsp hkey⟩
      · exact ⟨_, rfl, hp⟩
    · rename_i f hf
      exact absurd hf (hp f)

theorem foldlM_assign_ok (g : String → JsValue) (ks : List String) (o : PlainObject)
    (hp : ∀ f, o.proto ≠ Proto.function f)
    (hg : ∀ f, g "__proto__" ≠ JsValue.fn f) :
    ∃ o1, ks.foldlM (fun c key => assign c key (g key)) o = Except.ok o1 ∧
      ∀ f, o1.proto ≠ Proto.function f := by
  induction ks generalizing o with
  | nil => exact ⟨o, rfl, hp⟩
  | cons key rest ih =>
    have hv : key = "__proto__" → ∀ f, g key ≠ JsValue.fn f := by
      intro hkey
      rw [hkey]
      exact hg
    obtain ⟨o2, h2, hp2⟩ := assign_ok o key (g key) hp hv
    obtain ⟨o3, h3, hp3⟩ := ih o2 hp2
    refine ⟨o3, ?_, hp3⟩
    rw [List.foldlM_cons, h2]
    exact h3

/-! ## Lemmas on stored values and `get` -/

/-- A digit string is neither `"true"` nor `"false"`, so `coerce` parses it. -/
theorem coerce_of_isDigits (s : String) (h : isDigits s = true) :
    coerce s = toNumber (digitsValue s.data) := by
  have h1 : s ≠ "true" := by
    intro e
    rw [e] at h
    exact absurd h (by decide)
  have h2 : s ≠ "false" := by
    intro e
    rw [e] at h
    exact absurd h (by decide)
  simp [coerce, h1, h2, h, parseInt]

theorem toNumber_cases (n : Nat) :
    toNumber n = JsValue.inf ∨ ∃ m : Nat, toNumber n = JsValue.num m := by
  unfold toNumber
  split
  · exact Or.inr ⟨n, rfl⟩
  · split
    · exact Or.inl rfl
    · exact Or.inr ⟨_, rfl⟩

/-- The result of `coerce` is a boolean, a number or a string. -/
theorem coerce_cases (s : String) :
    (∃ b, coerce s = JsValue.bool b) ∨ coerce s = JsValue.inf ∨
      (∃ m : Nat, coerce s = JsValue.num m) ∨ coerce s = JsValue.str s := by
  unfold coerce
  split
  · exact Or.inl ⟨true, rfl⟩
  · split
    · exact Or.inl ⟨false, rfl⟩
    · split
      · rcases toNumber_cases (digitsValue s.data) with h | ⟨m, h⟩
        · exact Or.inr (Or.inl h)
        · exact Or.inr (Or.inr (Or.inl ⟨m, h⟩))
      · exact Or.inr (Or.inr (Or.inr rfl))

theorem coerce_ne_null (s : String) : coerce s ≠ JsValue.null := by
  rcases coerce_cases s with ⟨b, h⟩ | h | ⟨m, h⟩ | h <;> rw [h] <;> simp

theorem coerce_ne_fn (s : String) (f : Nat) : coerce s ≠ JsValue.fn f := by
  rcases coerce_cases s with ⟨b, h⟩ | h | ⟨m, h⟩ | h <;> rw [h] <;> simp

/-- With an environment entry under the lookup name, the second loop stores
the coerced entry. -/
theorem defaultValue_of_env (toUpperCase : String → String) (options : ResolvedOptions)
    (values : Obj JsValue) (env : Obj String) (key s : String)
    (h : List.lookup (prefixKey toUpperCase options key) env = some s) :
    defaultValue toUpperCase options values env key = coerce s := by
  simp [defaultValue, envValue, h, coerce_ne_null]

/-- With no environment entry under the lookup name, the second loop stores
the default. -/
theorem defaultValue_of_no_env (toUpperCase : String → String) (options : ResolvedOptions)
    (values : Obj JsValue) (env : Obj String) (key : String)
    (h : List.lookup (prefixKey toUpperCase options key) env = none) :
    defaultValue toUpperCase options values env key = getProp values key := by
  simp [defaultValue, envValue, h]

/-- The method `get` on a key that is present with a value that is not a function. -/
theorem get_of_lookup (call : FnTable) (self : ConfigInstance) (k : String)
    (fallback : Option JsValue) (v : JsValue)
    (h : List.lookup k self.config = some v) (hv : ∀ f, v ≠ JsValue.fn f) :
    get call self k fallback = Except.ok v := by
  unfold get
  simp only [has, getProp, h, Option.isSome_some, Option.getD_some, if_true,
    Bool.not_true, Bool.false_and]
  cases v <;> simp_all

/-- The method `get` on a key that is absent. -/
theorem get_of_absent (call : FnTable) (self : ConfigInstance) (k : String)
    (h : List.lookup k self.config = none) :
    get call self k none = Except.error ("Missing config key: " ++ k) := by
  unfold get
  simp [has, h]

theorem prefixKey_eq_lookupName (toUpperCase : String → String) (options : ResolvedOptions)
    (k : String) : prefixKey toUpperCase options k = lookupName toUpperCase options k := by
  unfold prefixKey lookupName
  by_cases hu : k ∈ options.unprefixed
  · simp [hu]
  · by_cases hp : options.pfx = ""
    · simp [hp]
    · simp [hu, hp]

/-! ## Lemmas on coercion -/

/-- The regular expression accepts exactly the non-empty strings whose
characters are all between `0` (code 48) and `9` (code 57). -/
theorem isDigits_iff (s : String) :
    isDigits s = true ↔ s ≠ "" ∧ ∀ c ∈ s.data, 48 ≤ c.toNat ∧ c.toNat ≤ 57 := by
  have hne : s.data = [] ↔ s = "" := by
    constructor
    · intro h
      exact String.ext h
    · intro h
      rw [h]
  have hd : ∀ c : Char, c.isDigit = true ↔ 48 ≤ c.toNat ∧ c.toNat ≤ 57 := by
    intro c
    simp [Char.isDigit, Char.toNat, UInt32.le_def, UInt32.toNat, BitVec.le_def]
  simp only [isDigits, Bool.and_eq_true, Bool.not_eq_true', List.isEmpty_eq_false,
    List.all_eq_true, hd]
  rw [Ne, Ne, hne]

theorem digitsValue_append (cs : List Char) (c : Char) :
    digitsValue (cs ++ [c]) = 10 * digitsValue cs + (c.toNat - 48) := by
  simp [digitsValue, List.foldl_append]

/-- The left-to-right accumulation of `parseInt` computes the base-10 value. -/
theorem digitsValue_eq_decimalValue (s : String) :
    digitsValue s.data = decimalValue s := by
  unfold decimalValue
  induction s.data using List.reverseRecOn with
  | nil => rfl
  | append_singleton cs c ih =>
    rw [digitsValue_append, ih]
    simp [Nat.ofDigits_cons]
    ring

/-- Integers up to `2^53` are their own Number value. -/
theorem toNumber_exact (n : Nat) (h : n ≤ 2 ^ 53) : toNumber n = JsValue.num n := by
  rcases Nat.lt_or_ge n (2 ^ 53) with hlt | hge
  · unfold toNumber
    rw [if_pos hlt]
  · have he : n = 2 ^ 53 := Nat.le_antisymm h hge
    subst he
    decide

/-! ## Lemmas on the accessors -/

/-- The method `get` on a key that is present: the stored value, or the result
of calling it when it is a function; the fallback plays no part. -/
theorem get_of_present (call : FnTable) (self : ConfigInstance) (k : String)
    (fallback : Option JsValue) (v : JsValue)
    (h : List.lookup k self.config = some v) :
    get call self k fallback =
      (match v with
        | JsValue.fn f => call f self
        | w => Except.ok w) := by
  unfold get
  simp only [has, getProp, h, Option.isSome_some, Option.getD_some, if_true,
    Bool.not_true, Bool.false_and]
  cases v <;> rfl

theorem nodeEnvIs_of_ok (call : FnTable) (self : ConfigInstance) (label v : JsValue)
    (h : get call self "NODE_ENV" none = Except.ok v) :
    nodeEnvIs call self label = Except.ok (decide (v = label)) := by
  unfold nodeEnvIs
  rw [h]

theorem nodeEnvIs_of_error (call : FnTable) (self : ConfigInstance) (label : JsValue)
    (e : String) (h : get call self "NODE_ENV" none = Except.error e) :
    nodeEnvIs call self label = Except.error e := by
  unfold nodeEnvIs
  rw [h]

/-- Every method call leaves the instance as it was. -/
theorem performAll_eq (call : FnTable) (self : ConfigInstance) (calls : List Call) :
    performAll call self calls = self := by
  induction calls generalizing self with
  | nil => rfl
  | cons c cs ih =>
    have h1 : (perform call self c).1 = self := by
      cases c <;> rfl
    simp only [performAll, h1, ih]

/-- The prefixed lookup name is never the bare key: it is longer. -/
theorem prefixed_ne_bare (u k : String) : u ++ "_" ++ k ≠ k := by
  intro h
  have hl := congrArg String.length h
  simp only [String.length_append] at hl
  have h1 : ("_" : String).length = 1 := by decide
  omega

/-- The value the second loop stores depends on the environment only through
the entry under the lookup name. -/
theorem defaultValue_congr (toUpperCase : String → String) (options : ResolvedOptions)
    (values : Obj JsValue) (env1 env2 : Obj String) (key : String)
    (h : List.lookup (prefixKey toUpperCase options key) env1
      = List.lookup (prefixKey toUpperCase options key) env2) :
    defaultValue toUpperCase options values env1 key
      = defaultValue toUpperCase options values env2 key := by
  simp [defaultValue, envValue, h]

/-- The value the second loop stores is a function only if the default is. -/
theorem defaultValue_ne_fn (toUpperCase : String → String) (options : ResolvedOptions)
    (values : Obj JsValue) (env : Obj String) (key : String)
    (hf : ∀ f, getProp values key ≠ JsValue.fn f) (f : Nat) :
    defaultValue toUpperCase options values env key ≠ JsValue.fn f := by
  cases h : List.lookup (prefixKey toUpperCase options key) env with
  | none =>
    rw [defaultValue_of_no_env _ _ _ _ _ h]
    exact hf f
  | some s =>
    rw [defaultValue_of_env _ _ _ _ _ s h]
    exact coerce_ne_fn s f

/-! ## The resolved mapping -/

/-- What a construction that returned is made of: the two loops did not throw,
and the instance holds the own properties they left and the options. -/
theorem Config_ok_iff (toUpperCase : String → String) (values : Obj JsValue)
    (env : Option (Obj String)) (options : Option Options) (c : ConfigInstance) :
    Config toUpperCase values env options = Except.ok c ↔
      ∃ o1 o2,
        extractUnprefixed (env.getD []) (defaults options configDefaults).unprefixed
          (PlainObject.mk [] Proto.objectPrototype) = Except.ok o1 ∧
        extractDefaults toUpperCase (defaults options configDefaults) values (env.getD []) o1
          = Except.ok o2 ∧
        c = ConfigInstance.mk o2.props (defaults options configDefaults)
          (defaults options configDefaults).environments.PRODUCTION
          (defaults options configDefaults).environments.DEVELOPMENT
          (defaults options configDefaults).environments.TEST
          (defaults options configDefaults).environments.INTEGRATION
          (defaults options configDefaults).pfx := by
  constructor
  · intro h
    unfold Config at h
    simp only [] at h
    split at h
    · cases h
    · rename_i o1 h1
      split at h
      · cases h
      · rename_i o2 h2
        exact ⟨o1, o2, h1, h2, (Except.ok.inj h).symm⟩
  · rintro ⟨o1, o2, h1, h2, rfl⟩
    unfold Config
    simp only [h1, h2]

/-- The resolved mapping of a constructed Config, at every key but
`__proto__`: a key of `values` holds the value of the second loop, another key
of the unprefixed list holds the value of the first loop, and no other key is
present. -/
theorem lookup_config (toUpperCase : String → String) (values : Obj JsValue)
    (env : Option (Obj String)) (options : Option Options) (c : ConfigInstance)
    (hc : Config toUpperCase values env options = Except.ok c)
    (k : String) (hk : k ≠ "__proto__") :
    List.lookup k c.config =
      if k ∈ keys values then
        some (defaultValue toUpperCase (defaults options configDefaults) values (env.getD []) k)
      else if k ∈ (defaults options configDefaults).unprefixed then
        some (envValue (env.getD []) k)
      else none := by
  obtain ⟨o1, o2, h1, h2, rfl⟩ := (Config_ok_iff toUpperCase values env options c).1 hc
  have l1 := lookup_foldlM_assign _ _ _ _ k h1 hk
  have l2 := lookup_foldlM_assign _ _ _ _ k h2 hk
  simp only [l2, l1]
  simp

/-- The options and labels of a constructed Config. -/
theorem Config_fields (toUpperCase : String → String) (values : Obj JsValue)
    (env : Option (Obj String)) (options : Option Options) (c : ConfigInstance)
    (hc : Config toUpperCase values env options = Except.ok c) :
    c.options = defaults options configDefaults ∧
    c.PRODUCTION = (defaults options configDefaults).environments.PRODUCTION ∧
    c.DEVELOPMENT = (defaults options configDefaults).environments.DEVELOPMENT ∧
    c.TEST = (defaults options configDefaults).environments.TEST ∧
    c.INTEGRATION = (defaults options configDefaults).environments.INTEGRATION ∧
    c.pfx = (defaults options configDefaults).pfx := by
  obtain ⟨o1, o2, h1, h2, rfl⟩ := (Config_ok_iff toUpperCase values env options c).1 hc
  exact ⟨rfl, rfl, rfl, rfl, rfl, rfl⟩

/-- The construction returns an instance whenever the defaults mapping holds
no function under `__proto__`. -/
theorem Config_returns (toUpperCase : String → String) (values : Obj JsValue)
    (env : Option (Obj String)) (options : Option Options)
    (h : ∀ f, getProp values "__proto__" ≠ JsValue.fn f) :
    ∃ c, Config toUpperCase values env options = Except.ok c := by
  obtain ⟨o1, h1, hp1⟩ := foldlM_assign_ok (envValue (env.getD []))
    (defaults options configDefaults).unprefixed (PlainObject.mk [] Proto.objectPrototype)
    (by intro f; simp)
    (by
      intro f
      unfold envValue
      split
      · exact coerce_ne_fn _ f
      · simp)
  obtain ⟨o2, h2, _⟩ := foldlM_assign_ok
    (defaultValue toUpperCase (defaults options configDefaults) values (env.getD []))
    (keys values) o1 hp1
    (defaultValue_ne_fn toUpperCase (defaults options configDefaults) values (env.getD [])
      "__proto__" h)
  exact ⟨_, (Config_ok_iff toUpperCase values env options _).2 ⟨o1, o2, h1, h2, rfl⟩⟩

/-- The keys other than `__proto__` of the resolved mapping are the keys of
`values` and the elements of the unprefixed list in effect. -/
theorem has_config_iff (toUpperCase : String → String) (values : Obj JsValue)
    (env : Option (Obj String)) (options : Option Options) (c : ConfigInstance)
    (hc : Config toUpperCase values env options = Except.ok c)
    (k : String) (hk : k ≠ "__proto__") :
    has c.config k = true ↔
      k ∈ keys values ∨ k ∈ (defaults options configDefaults).unprefixed := by
  unfold has
  rw [lookup_config toUpperCase values env options c hc k hk]
  by_cases h1 : k ∈ keys values
  · simp [h1]
  · by_cases h2 : k ∈ (defaults options configDefaults).unprefixed
    · simp [h1, h2]
    · simp [h1, h2]

/-- A key other than `__proto__` of the resolved mapping with an environment
entry under its lookup name reads as the coerced entry. -/
theorem get_of_env (toUpperCase : String → String) (call : FnTable) (values : Obj JsValue)
    (env : Option (Obj String)) (options : Option Options) (c : ConfigInstance)
    (hc : Config toUpperCase values env options = Except.ok c)
    (k s : String) (fallback : Option JsValue) (hp : k ≠ "__proto__")
    (hk : k ∈ keys values ∨ k ∈ (defaults options configDefaults).unprefixed)
    (he : List.lookup (lookupName toUpperCase (defaults options configDefaults) k)
      (env.getD []) = some s) :
    get call c k fallback = Except.ok (coerce s) := by
  apply get_of_lookup _ _ _ _ _ _ (coerce_ne_fn s)
  rw [lookup_config toUpperCase values env options c hc k hp]
  by_cases h1 : k ∈ keys values
  · rw [if_pos h1, defaultValue_of_env _ _ _ _ _ s]
    rw [prefixKey_eq_lookupName]
    exact he
  · have h2 : k ∈ (defaults options configDefaults).unprefixed := hk.resolve_left h1
    have hn : lookupName toUpperCase (defaults options configDefaults) k = k := by
      simp [lookupName, h2]
    rw [hn] at he
    rw [if_neg h1, if_pos h2]
    simp [envValue, he]

/-- Without an `environments` option the instance labels are the module
constants. -/
theorem labels_of_no_environments (toUpperCase : String → String) (values : Obj JsValue)
    (env : Option (Obj String)) (options : Option Options) (c : ConfigInstance)
    (hc : Config toUpperCase values env options = Except.ok c)
    (he : options.bind Options.environments = none) :
    c.PRODUCTION = JsValue.str "production" ∧
    c.DEVELOPMENT = JsValue.str "development" ∧
    c.TEST = JsValue.str "test" ∧
    c.INTEGRATION = JsValue.str "integration" := by
  obtain ⟨_, l1, l2, l3, l4, _⟩ := Config_fields toUpperCase values env options c hc
  rw [l1, l2, l3, l4]
  simp [defaults, he, configDefaults, PRODUCTION, DEVELOPMENT, TEST, INTEGRATION]

/-- The list that `defaults` leaves in `options.unprefixed` is the list in
effect of the specification. -/
theorem defaults_unprefixed (options : Option Options) :
    (defaults options configDefaults).unprefixed = unprefixedInEffect options := by
  unfold defaults unprefixedInEffect
  cases h : options.bind Options.unprefixed <;> simp [configDefaults]

/-! ## The claims -/

/-- C1 as stated fails at the key `__proto__`: it is a key of the defaults
mapping, the environment has the entry `"7"` under it and the prefix is empty,
yet the assignment to `config['__proto__']` stores nothing and `get` throws
the missing-key error instead of returning `coerce("7") = 7`. -/
theorem env_override_lost_at_proto :
    "__proto__" ∈ keys [("__proto__", JsValue.num 5)] ∧
    List.lookup "__proto__" [("__proto__", "7")] = some "7" ∧
    coerce "7" = JsValue.num 7 ∧
    (Config asciiUpper [("__proto__", JsValue.num 5)] (some [("__proto__", "7")]) none).bind
        (fun c => get noFunctions c "__proto__" none)
      = Except.error "Missing config key: __proto__" := by
  decide

/-- C1 amended: on a Config built with an empty prefix, a key of the defaults
mapping other than `__proto__` that has an environment entry `s` under its own
name reads as `coerce(s)`, whatever its default is and whatever the unprefixed
list is. -/
theorem env_overrides_default (toUpperCase : String → String) (call : FnTable)
    (values : Obj JsValue) (env : Option (Obj String)) (options : Option Options)
    (c : ConfigInstance) (hc : Config toUpperCase values env options = Except.ok c)
    (k s : String)
    (hk : k ∈ keys values) (hn : k ≠ "__proto__")
    (hp : (defaults options configDefaults).pfx = "")
    (he : List.lookup k (env.getD []) = some s) :
    get call c k none = Except.ok (coerce s) := by
  apply get_of_env toUpperCase call values env options c hc k s none hn (Or.inl hk)
  have hl : lookupName toUpperCase (defaults options configDefaults) k = k := by
    simp [lookupName, hp]
  rw [hl]
  exact he

/-- Witness of amended C1 on falsy coerced values: the entries `"false"`, `"0"`
and `""` replace the defaults `true`, `5` and `"x"`. -/
theorem env_overrides_default_witness :
    ∃ c,
      Config asciiUpper truthyDefaults (some falsyEnv) none = Except.ok c ∧
      get noFunctions c "FLAG" none = Except.ok (JsValue.bool false) ∧
      get noFunctions c "COUNT" none = Except.ok (JsValue.num 0) ∧
      get noFunctions c "NAME" none = Except.ok (JsValue.str "") :=
  ⟨_, rfl,
   env_overrides_default asciiUpper noFunctions truthyDefaults (some falsyEnv) none _ rfl
      "FLAG" "false" (by decide) (by decide) (by decide) (by decide),
   env_overrides_default asciiUpper noFunctions truthyDefaults (some falsyEnv) none _ rfl
      "COUNT" "0" (by decide) (by decide) (by decide) (by decide),
   env_overrides_default asciiUpper noFunctions truthyDefaults (some falsyEnv) none _ rfl
      "NAME" "" (by decide) (by decide) (by decide) (by decide)⟩

/-- C2 as stated fails at the key `__proto__`: under prefix `myapp` it is a
defaults key outside the unprefixed list with the entry `MYAPP___proto__`, yet
nothing is stored and `get` throws the missing-key error. -/
theorem prefixed_lookup_lost_at_proto :
    "__proto__" ∈ keys [("__proto__", JsValue.str "d")] ∧
    "__proto__" ∉
      (defaults (some (Options.mk (some "myapp") none none none)) configDefaults).unprefixed ∧
    List.lookup (asciiUpper "myapp" ++ "_" ++ "__proto__") [("MYAPP___proto__", "s")]
      = some "s" ∧
    (Config asciiUpper [("__proto__", JsValue.str "d")] (some [("MYAPP___proto__", "s")])
        (some (Options.mk (some "myapp") none none none))).bind
        (fun c => get noFunctions c "__proto__" none)
      = Except.error "Missing config key: __proto__" := by
  decide

/-- C2 amended: with a non-empty prefix `p`, a key of the defaults mapping
outside the unprefixed list is looked up under `upper(p) + "_" + k`, the key
unchanged; when the key is not `__proto__`, an entry `s` there makes `get(k)`
return `coerce(s)` on the built Config. -/
theorem prefixed_lookup (toUpperCase : String → String) (call : FnTable)
    (values : Obj JsValue) (env : Option (Obj String)) (options : Option Options)
    (c : ConfigInstance) (hc : Config toUpperCase values env options = Except.ok c)
    (p k s : String)
    (hp : (defaults options configDefaults).pfx = p) (hne : p ≠ "")
    (hk : k ∈ keys values)
    (hu : k ∉ (defaults options configDefaults).unprefixed)
    (he : List.lookup (toUpperCase p ++ "_" ++ k) (env.getD []) = some s) :
    prefixKey toUpperCase (defaults options configDefaults) k = toUpperCase p ++ "_" ++ k ∧
    (k ≠ "__proto__" → get call c k none = Except.ok (coerce s)) := by
  have hl : lookupName toUpperCase (defaults options configDefaults) k
      = toUpperCase p ++ "_" ++ k := by
    simp [lookupName, hp, hne, hu]
  refine ⟨by rw [prefixKey_eq_lookupName, hl], ?_⟩
  intro hn
  apply get_of_env toUpperCase call values env options c hc k s none hn (Or.inl hk)
  rw [hl]
  exact he

/-- Witness of amended C2: prefix `"myapp"` and key `"DEFAULT_VALUE"` read
`env["MYAPP_DEFAULT_VALUE"]`. -/
theorem prefixed_lookup_witness :
    prefixKey asciiUpper
        (defaults (some (Options.mk (some "myapp") none none none)) configDefaults)
        "DEFAULT_VALUE" = "MYAPP_DEFAULT_VALUE" ∧
    ∃ c,
      Config asciiUpper DEFAULT_CONFIG (some [("MYAPP_DEFAULT_VALUE", "overidden")])
        (some (Options.mk (some "myapp") none none none)) = Except.ok c ∧
      get noFunctions c "DEFAULT_VALUE" none = Except.ok (JsValue.str "overidden") :=
  ⟨(prefixed_lookup asciiUpper noFunctions DEFAULT_CONFIG
      (some [("MYAPP_DEFAULT_VALUE", "overidden")])
      (some (Options.mk (some "myapp") none none none)) _ rfl
      "myapp" "DEFAULT_VALUE" "overidden"
      (by decide) (by decide) (by decide) (by decide) (by decide)).1,
   _, rfl,
   (prefixed_lookup asciiUpper noFunctions DEFAULT_CONFIG
      (some [("MYAPP_DEFAULT_VALUE", "overidden")])
      (some (Options.mk (some "myapp") none none none)) _ rfl
      "myapp" "DEFAULT_VALUE" "overidden"
      (by decide) (by decide) (by decide) (by decide) (by decide)).2 (by decide)⟩

/-- C3, the code at the failing input: with prefix `MYAPP`, the caller's list
`['UNPREFIXED']` and the environment entry `PORT=1234`, the name consulted for
`PORT` is `MYAPP_PORT`, and `get('PORT')` is the default 4567, not
`coerce("1234") = 1234`. -/
theorem port_prefixed_when_list_omits_it :
    prefixKey asciiUpper
        (defaults (some (Options.mk (some "MYAPP") (some ["UNPREFIXED"]) none none))
          configDefaults) "PORT" = "MYAPP_PORT" ∧
    coerce "1234" = JsValue.num 1234 ∧
    (Config asciiUpper DEFAULT_CONFIG (some [("PORT", "1234")])
        (some (Options.mk (some "MYAPP") (some ["UNPREFIXED"]) none none))).bind
        (fun c => get noFunctions c "PORT" none)
      = Except.ok (JsValue.num 4567) := by
  decide

/-- C4 as stated fails at the key `__proto__`: the defaults mapping holds the
string `"d"` under it and the environment is empty, yet nothing is stored and
`get` throws the missing-key error instead of returning the default. -/
theorem default_lost_at_proto :
    "__proto__" ∈ keys [("__proto__", JsValue.str "d")] ∧
    getProp [("__proto__", JsValue.str "d")] "__proto__" = JsValue.str "d" ∧
    (Config asciiUpper [("__proto__", JsValue.str "d")] (some []) none).bind
        (fun c => get noFunctions c "__proto__" none)
      = Except.error "Missing config key: __proto__" := by
  decide

/-- C4 amended: on a built Config, a key of the defaults mapping other than
`__proto__` whose default is not a function and whose lookup name has no
environment entry reads as the default itself, unchanged, also when the key is
in the unprefixed list. -/
theorem default_verbatim (toUpperCase : String → String) (call : FnTable)
    (values : Obj JsValue) (env : Option (Obj String)) (options : Option Options)
    (c : ConfigInstance) (hc : Config toUpperCase values env options = Except.ok c)
    (k : String)
    (hk : k ∈ keys values) (hn : k ≠ "__proto__")
    (hf : ∀ f, getProp values k ≠ JsValue.fn f)
    (he : List.lookup (lookupName toUpperCase (defaults options configDefaults) k)
      (env.getD []) = none) :
    get call c k none = Except.ok (getProp values k) := by
  apply get_of_lookup _ _ _ _ _ _ hf
  rw [lookup_config toUpperCase values env options c hc k hn, if_pos hk,
    defaultValue_of_no_env]
  rw [prefixKey_eq_lookupName]
  exact he

/-- Witness of amended C4: with defaults `PORT: 4567`, `NODE_ENV: 'production'`
and an empty environment the two unprefixed keys read as their defaults, and
the default strings `"123"` and `"true"` stay strings under prefix `MYAPP`. -/
theorem default_verbatim_witness :
    (∃ c,
      Config asciiUpper portDefaults (some []) none = Except.ok c ∧
      get noFunctions c "PORT" none = Except.ok (JsValue.num 4567) ∧
      get noFunctions c "NODE_ENV" none = Except.ok (JsValue.str "production")) ∧
    (∃ c,
      Config asciiUpper stringDefaults (some [("A", "5"), ("B", "false")])
        (some myappOptions) = Except.ok c ∧
      get noFunctions c "A" none = Except.ok (JsValue.str "123") ∧
      get noFunctions c "B" none = Except.ok (JsValue.str "true")) :=
  ⟨⟨_, rfl,
    default_verbatim asciiUpper noFunctions portDefaults (some []) none _ rfl "PORT"
      (by decide) (by decide) (by intro f hf; cases hf) (by decide),
    default_verbatim asciiUpper noFunctions portDefaults (some []) none _ rfl "NODE_ENV"
      (by decide) (by decide) (by intro f hf; cases hf) (by decide)⟩,
   ⟨_, rfl,
    default_verbatim asciiUpper noFunctions stringDefaults
      (some [("A", "5"), ("B", "false")]) (some myappOptions) _ rfl "A"
      (by decide) (by decide) (by intro f hf; cases hf) (by decide),
    default_verbatim asciiUpper noFunctions stringDefaults
      (some [("A", "5"), ("B", "false")]) (some myappOptions) _ rfl "B"
      (by decide) (by decide) (by intro f hf; cases hf) (by decide)⟩⟩

/-- C5 as stated fails at the key `__proto__`: with the caller's list
`['__proto__']`, the environment entry under it is not returned and the key
set nowhere does not read as `null`; in both cases nothing is stored and
`get` throws the missing-key error. -/
theorem unprefixed_lost_at_proto :
    "__proto__" ∈
      (defaults (some (Options.mk none (some ["__proto__"]) none none))
        configDefaults).unprefixed ∧
    (Config asciiUpper [] (some [("__proto__", "x")])
        (some (Options.mk none (some ["__proto__"]) none none))).bind
        (fun c => get noFunctions c "__proto__" none)
      = Except.error "Missing config key: __proto__" ∧
    (Config asciiUpper [] (some [])
        (some (Options.mk none (some ["__proto__"]) none none))).bind
        (fun c => get noFunctions c "__proto__" none)
      = Except.error "Missing config key: __proto__" := by
  decide

/-- C5 amended: on a built Config, a key other than `__proto__` of the
unprefixed list in effect is read under its bare name, whatever the prefix and
whether or not the defaults mapping has it: an environment entry `s` makes
`get(k)` return `coerce(s)`, and a key in neither the environment nor the
defaults mapping reads as `null`. -/
theorem unprefixed_bypass (toUpperCase : String → String) (call : FnTable)
    (values : Obj JsValue) (env : Option (Obj String)) (options : Option Options)
    (c : ConfigInstance) (hc : Config toUpperCase values env options = Except.ok c)
    (k : String)
    (hk : k ∈ (defaults options configDefaults).unprefixed) (hn : k ≠ "__proto__") :
    (∀ s, List.lookup k (env.getD []) = some s →
      get call c k none = Except.ok (coerce s)) ∧
    (List.lookup k (env.getD []) = none → k ∉ keys values →
      get call c k none = Except.ok JsValue.null) := by
  constructor
  · intro s he
    apply get_of_env toUpperCase call values env options c hc k s none hn (Or.inr hk)
    have hl : lookupName toUpperCase (defaults options configDefaults) k = k := by
      simp [lookupName, hk]
    rw [hl]
    exact he
  · intro he hv
    apply get_of_lookup _ _ _ _ _ _ (by simp)
    rw [lookup_config toUpperCase values env options c hc k hn, if_neg hv, if_pos hk]
    simp [envValue, he]

/-- Witness of amended C5: under prefix `MYAPP` and the list
`['UNPREFIXED', 'OTHER']`, `UNPREFIXED=foo` is read although the defaults
mapping lacks the key, and `OTHER`, set nowhere, reads as `null`. -/
theorem unprefixed_bypass_witness :
    ∃ c,
      Config asciiUpper DEFAULT_CONFIG (some [("UNPREFIXED", "foo")])
        (some (Options.mk (some "MYAPP") (some ["UNPREFIXED", "OTHER"]) none none))
        = Except.ok c ∧
      get noFunctions c "UNPREFIXED" none = Except.ok (JsValue.str "foo") ∧
      get noFunctions c "OTHER" none = Except.ok JsValue.null :=
  ⟨_, rfl,
   (unprefixed_bypass asciiUpper noFunctions DEFAULT_CONFIG (some [("UNPREFIXED", "foo")])
      (some (Options.mk (some "MYAPP") (some ["UNPREFIXED", "OTHER"]) none none)) _ rfl
      "UNPREFIXED" (by decide) (by decide)).1 "foo" (by decide),
   (unprefixed_bypass asciiUpper noFunctions DEFAULT_CONFIG (some [("UNPREFIXED", "foo")])
      (some (Options.mk (some "MYAPP") (some ["UNPREFIXED", "OTHER"]) none none)) _ rfl
      "OTHER" (by decide) (by decide)).2 (by decide) (by decide)⟩

/-- C6, the code at the failing input: with the caller's list `['UNPREFIXED']`,
an empty defaults mapping and the environment entry `PORT=8080`, neither
`PORT` nor `NODE_ENV` is a key of the resolved mapping and `get` of either
fails with the missing-key error. -/
theorem port_missing_when_list_omits_it :
    (Config asciiUpper [] (some [("PORT", "8080")])
        (some (Options.mk none (some ["UNPREFIXED"]) none none))).map
        (fun c => has c.config "PORT")
      = Except.ok false ∧
    (Config asciiUpper [] (some [("PORT", "8080")])
        (some (Options.mk none (some ["UNPREFIXED"]) none none))).bind
        (fun c => get noFunctions c "PORT" none)
      = Except.error "Missing config key: PORT" ∧
    (Config asciiUpper [] (some [("PORT", "8080")])
        (some (Options.mk none (some ["UNPREFIXED"]) none none))).bind
        (fun c => get noFunctions c "NODE_ENV" none)
      = Except.error "Missing config key: NODE_ENV" := by
  decide

/-- C7 as stated fails at the digit string of `2^53 + 1`: it is a non-empty
run of ASCII digits, its base-10 value is 9007199254740993, and `coerce`
returns 9007199254740992.  Its part on `get` fails at the key `__proto__`
too: with the entry `"7"` under it nothing is stored and `get` throws. -/
theorem numeric_coercion_inexact :
    (firstInexact ≠ "" ∧ ∀ c ∈ firstInexact.data, 48 ≤ c.toNat ∧ c.toNat ≤ 57) ∧
    decimalValue firstInexact = 9007199254740993 ∧
    coerce firstInexact = JsValue.num 9007199254740992 ∧
    coerce firstInexact ≠ JsValue.num (decimalValue firstInexact) ∧
    (Config asciiUpper [("__proto__", JsValue.null)] (some [("__proto__", "7")]) none).bind
        (fun c => get noFunctions c "__proto__" none)
      = Except.error "Missing config key: __proto__" := by
  decide

/-- C7 amended: for a non-empty string `s` of ASCII digits whose base-10 value
is at most `2^53`, `coerce(s)` is that integer, and on a built Config `get(k)`
of a configuration key other than `__proto__` whose environment entry under
its lookup name is `s` returns that integer; for every non-empty digit string
`coerce(s)` is a number, never a string. -/
theorem numeric_coercion_exact (toUpperCase : String → String) (call : FnTable)
    (values : Obj JsValue) (env : Option (Obj String)) (options : Option Options)
    (k s : String)
    (hs : s ≠ "") (hd : ∀ c ∈ s.data, 48 ≤ c.toNat ∧ c.toNat ≤ 57) :
    (decimalValue s ≤ 2 ^ 53 → coerce s = JsValue.num (decimalValue s)) ∧
    (coerce s = JsValue.inf ∨ ∃ m : Nat, coerce s = JsValue.num m) ∧
    (∀ c, Config toUpperCase values env options = Except.ok c →
      decimalValue s ≤ 2 ^ 53 → k ≠ "__proto__" →
      k ∈ keys values ∨ k ∈ (defaults options configDefaults).unprefixed →
      List.lookup (lookupName toUpperCase (defaults options configDefaults) k)
        (env.getD []) = some s →
      get call c k none = Except.ok (JsValue.num (decimalValue s))) := by
  have hdig : isDigits s = true := (isDigits_iff s).2 ⟨hs, hd⟩
  have hco : coerce s = toNumber (decimalValue s) := by
    rw [coerce_of_isDigits s hdig, digitsValue_eq_decimalValue]
  have hex : decimalValue s ≤ 2 ^ 53 → coerce s = JsValue.num (decimalValue s) := by
    intro hle
    rw [hco, toNumber_exact _ hle]
  refine ⟨hex, ?_, ?_⟩
  · rw [hco]
    exact toNumber_cases _
  · intro c hc hle hn hk he
    rw [← hex hle]
    exact get_of_env toUpperCase call values env options c hc k s none hn hk he

/-- Witness of amended C7: `"007"` coerces to 7, and `NUMBER=2046` makes
`get('NUMBER')` the integer 2046. -/
theorem numeric_coercion_exact_witness :
    coerce "007" = JsValue.num 7 ∧
    ∃ c,
      Config asciiUpper DEFAULT_CONFIG (some [("NUMBER", "2046")]) none = Except.ok c ∧
      get noFunctions c "NUMBER" none = Except.ok (JsValue.num 2046) :=
  ⟨(numeric_coercion_exact asciiUpper noFunctions DEFAULT_CONFIG none none "NUMBER" "007"
      (by decide) (by decide)).1 (by decide),
   _, rfl,
   (numeric_coercion_exact asciiUpper noFunctions DEFAULT_CONFIG
      (some [("NUMBER", "2046")]) none "NUMBER" "2046"
      (by decide) (by decide)).2.2 _ rfl (by decide) (by decide) (by decide) (by decide)⟩

/-- C8: a string that is not `"true"`, not `"false"` and not a non-empty run of
ASCII digits is returned by `coerce` unchanged, as a string. -/
theorem non_coercion (s : String) (ht : s ≠ "true") (hf : s ≠ "false")
    (hd : ¬ (s ≠ "" ∧ ∀ c ∈ s.data, 48 ≤ c.toNat ∧ c.toNat ≤ 57)) :
    coerce s = JsValue.str s := by
  have hdig : isDigits s = false := by
    cases h : isDigits s with
    | false => rfl
    | true => exact absurd ((isDigits_iff s).1 h) hd
  simp [coerce, ht, hf, hdig]

/-- Witness of C8: the negative number, the float, the digit strings with a
leading or trailing non-digit, the URL, the empty string and the other
spellings of the booleans stay strings. -/
theorem non_coercion_witness :
    coerce "-5" = JsValue.str "-5" ∧
    coerce "1.5" = JsValue.str "1.5" ∧
    coerce " 12" = JsValue.str " 12" ∧
    coerce "12\n" = JsValue.str "12\n" ∧
    coerce "12px" = JsValue.str "12px" ∧
    coerce "http://localhost:2046" = JsValue.str "http://localhost:2046" ∧
    coerce "" = JsValue.str "" ∧
    coerce "True" = JsValue.str "True" ∧
    coerce "FALSE" = JsValue.str "FALSE" :=
  ⟨non_coercion "-5" (by decide) (by decide) (by decide),
   non_coercion "1.5" (by decide) (by decide) (by decide),
   non_coercion " 12" (by decide) (by decide) (by decide),
   non_coercion "12\n" (by decide) (by decide) (by decide),
   non_coercion "12px" (by decide) (by decide) (by decide),
   non_coercion "http://localhost:2046" (by decide) (by decide) (by decide),
   non_coercion "" (by decide) (by decide) (by decide),
   non_coercion "True" (by decide) (by decide) (by decide),
   non_coercion "FALSE" (by decide) (by decide) (by decide)⟩

/-- C9 as stated fails at the key `__proto__`: it is a key of the defaults
mapping whose environment entry is `"true"`, yet nothing is stored and `get`
throws the missing-key error instead of returning the boolean. -/
theorem bool_lost_at_proto :
    "__proto__" ∈ keys [("__proto__", JsValue.null)] ∧
    coerce "true" = JsValue.bool true ∧
    (Config asciiUpper [("__proto__", JsValue.null)] (some [("__proto__", "true")]) none).bind
        (fun c => get noFunctions c "__proto__" none)
      = Except.error "Missing config key: __proto__" := by
  decide

/-- C9 amended: `coerce("true")` is the boolean true and `coerce("false")` the
boolean false, and on a built Config a configuration key other than
`__proto__` whose environment entry under its lookup name is `"true"` or
`"false"` reads as that boolean. -/
theorem bool_coercion (toUpperCase : String → String) (call : FnTable)
    (values : Obj JsValue) (env : Option (Obj String)) (options : Option Options)
    (c : ConfigInstance) (hc : Config toUpperCase values env options = Except.ok c)
    (k : String)
    (hk : k ∈ keys values ∨ k ∈ (defaults options configDefaults).unprefixed)
    (hn : k ≠ "__proto__") :
    coerce "true" = JsValue.bool true ∧
    coerce "false" = JsValue.bool false ∧
    (List.lookup (lookupName toUpperCase (defaults options configDefaults) k)
        (env.getD []) = some "true" →
      get call c k none = Except.ok (JsValue.bool true)) ∧
    (List.lookup (lookupName toUpperCase (defaults options configDefaults) k)
        (env.getD []) = some "false" →
      get call c k none = Except.ok (JsValue.bool false)) := by
  have h1 : coerce "true" = JsValue.bool true := by decide
  have h2 : coerce "false" = JsValue.bool false := by decide
  refine ⟨h1, h2, ?_, ?_⟩
  · intro he
    rw [← h1]
    exact get_of_env toUpperCase call values env options c hc k "true" none hn hk he
  · intro he
    rw [← h2]
    exact get_of_env toUpperCase call values env options c hc k "false" none hn hk he

/-- Witness of amended C9: the test `IS_TRUE=true`, `IS_FALSE=false`, and a
prefixed entry `MYAPP_IS_TRUE=true`. -/
theorem bool_coercion_witness :
    (∃ c,
      Config asciiUpper DEFAULT_CONFIG (some [("IS_TRUE", "true"), ("IS_FALSE", "false")])
        none = Except.ok c ∧
      get noFunctions c "IS_TRUE" none = Except.ok (JsValue.bool true) ∧
      get noFunctions c "IS_FALSE" none = Except.ok (JsValue.bool false)) ∧
    (∃ c,
      Config asciiUpper DEFAULT_CONFIG (some [("MYAPP_IS_TRUE", "true")])
        (some myappOptions) = Except.ok c ∧
      get noFunctions c "IS_TRUE" none = Except.ok (JsValue.bool true)) :=
  ⟨⟨_, rfl,
    (bool_coercion asciiUpper noFunctions DEFAULT_CONFIG
      (some [("IS_TRUE", "true"), ("IS_FALSE", "false")]) none _ rfl "IS_TRUE"
      (by decide) (by decide)).2.2.1 (by decide),
    (bool_coercion asciiUpper noFunctions DEFAULT_CONFIG
      (some [("IS_TRUE", "true"), ("IS_FALSE", "false")]) none _ rfl "IS_FALSE"
      (by decide) (by decide)).2.2.2 (by decide)⟩,
   ⟨_, rfl,
    (bool_coercion asciiUpper noFunctions DEFAULT_CONFIG
      (some [("MYAPP_IS_TRUE", "true")]) (some myappOptions) _ rfl "IS_TRUE"
      (by decide) (by decide)).2.2.1 (by decide)⟩⟩

/-- C10: on a key absent from the resolved mapping, `get(k, fb)` returns `fb`
for every supplied fallback that is not a function, `null` and `undefined`
included, and `get(k)` fails with the message `Missing config key: ` followed
by `k`. -/
theorem fallback_and_missing (call : FnTable) (self : ConfigInstance) (k : String)
    (h : has self.config k = false) :
    (∀ fb : JsValue, (∀ f, fb ≠ JsValue.fn f) →
      get call self k (some fb) = Except.ok fb) ∧
    get call self k none = Except.error ("Missing config key: " ++ k) ∧
    List.IsInfix k.data ("Missing config key: " ++ k).data := by
  refine ⟨?_, ?_, ?_⟩
  · intro fb hfb
    unfold get
    cases fb with
    | fn f => exact absurd rfl (hfb f)
    | _ => simp [h]
  · unfold get
    simp [h]
  · exact ⟨"Missing config key: ".data, [], by simp⟩

/-- Witness of C10: on the test configuration `get('MISSING_VALUE', 'found')`
is `'found'`, explicit `null` and `undefined` fallbacks are returned, and
`get('MISSING_VALUE')` fails naming the key. -/
theorem fallback_and_missing_witness :
    ∃ c,
      Config asciiUpper DEFAULT_CONFIG none none = Except.ok c ∧
      get noFunctions c "MISSING_VALUE" (some (JsValue.str "found"))
        = Except.ok (JsValue.str "found") ∧
      get noFunctions c "MISSING_VALUE" (some JsValue.null) = Except.ok JsValue.null ∧
      get noFunctions c "MISSING_VALUE" (some JsValue.undefined)
        = Except.ok JsValue.undefined ∧
      get noFunctions c "MISSING_VALUE" none
        = Except.error "Missing config key: MISSING_VALUE" :=
  ⟨_, rfl,
   (fallback_and_missing noFunctions _ "MISSING_VALUE" (by decide)).1
      (JsValue.str "found") (by intro f; simp),
   (fallback_and_missing noFunctions _ "MISSING_VALUE" (by decide)).1
      JsValue.null (by intro f; simp),
   (fallback_and_missing noFunctions _ "MISSING_VALUE" (by decide)).1
      JsValue.undefined (by intro f; simp),
   (fallback_and_missing noFunctions _ "MISSING_VALUE" (by decide)).2.1⟩

/-- C11 as stated fails at the key `__proto__`: its default is a function and
the environment is empty, yet the assignment makes the function the prototype
of `config`, stores no own property, and `get` throws the missing-key error
instead of returning the result of the function. -/
theorem lazy_value_lost_at_proto :
    "__proto__" ∈ keys [("__proto__", JsValue.fn 0)] ∧
    getProp [("__proto__", JsValue.fn 0)] "__proto__" = JsValue.fn 0 ∧
    (Config asciiUpper [("__proto__", JsValue.fn 0)] (some []) none).bind
        (fun c => get sampleFunctions c "__proto__" none)
      = Except.error "Missing config key: __proto__" := by
  decide

/-- C11 amended: on a built Config, for a key of the defaults mapping other
than `__proto__` whose default is the function `f` and whose lookup name has no
environment entry, `get(k)` is `f` called with the instance `get` was called
on; and for an absent key, `get(k, f)` with a function fallback `f` is `f`
called with that instance. -/
theorem lazy_values (toUpperCase : String → String) (call : FnTable)
    (values : Obj JsValue) (env : Option (Obj String)) (options : Option Options)
    (k : String) (f : Nat) :
    (∀ c, Config toUpperCase values env options = Except.ok c →
      k ∈ keys values → k ≠ "__proto__" → getProp values k = JsValue.fn f →
      List.lookup (lookupName toUpperCase (defaults options configDefaults) k)
        (env.getD []) = none →
      List.lookup k c.config = some (JsValue.fn f) ∧
      get call c k none = call f c) ∧
    (∀ self : ConfigInstance, has self.config k = false →
      get call self k (some (JsValue.fn f)) = call f self) := by
  constructor
  · intro c hc hk hn hf he
    have hl : List.lookup k c.config = some (JsValue.fn f) := by
      rw [lookup_config toUpperCase values env options c hc k hn, if_pos hk,
        defaultValue_of_no_env, hf]
      rw [prefixKey_eq_lookupName]
      exact he
    exact ⟨hl, by rw [get_of_present _ _ _ _ _ hl]⟩
  · intro self h
    unfold get
    simp [h]

/-- Witness of amended C11: the test `LAZY_VALUE` returns `'callback'`, a lazy
default reads another key of the very instance, and a function fallback is
called. -/
theorem lazy_values_witness :
    (∃ c,
      Config asciiUpper [("LAZY_VALUE", JsValue.fn 0)] none none = Except.ok c ∧
      get sampleFunctions c "LAZY_VALUE" none = Except.ok (JsValue.str "callback")) ∧
    (∃ c,
      Config asciiUpper [("LAZY", JsValue.fn 1), ("B", JsValue.str "x")] none none
        = Except.ok c ∧
      get sampleFunctions c "LAZY" none = Except.ok (JsValue.str "x")) ∧
    (∃ c,
      Config asciiUpper DEFAULT_CONFIG none none = Except.ok c ∧
      get sampleFunctions c "MISSING_VALUE" (some (JsValue.fn 0))
        = Except.ok (JsValue.str "callback")) :=
  ⟨⟨_, rfl,
    ((lazy_values asciiUpper sampleFunctions [("LAZY_VALUE", JsValue.fn 0)] none none
      "LAZY_VALUE" 0).1 _ rfl (by decide) (by decide) (by decide) (by decide)).2⟩,
   ⟨_, rfl,
    ((lazy_values asciiUpper sampleFunctions
      [("LAZY", JsValue.fn 1), ("B", JsValue.str "x")] none none
      "LAZY" 1).1 _ rfl (by decide) (by decide) (by decide) (by decide)).2⟩,
   ⟨_, rfl,
    (lazy_values asciiUpper sampleFunctions [] none none "MISSING_VALUE" 0).2
      _ (by decide)⟩⟩

/-- C12: when `get('NODE_ENV')` succeeds with `v`, each of the four predicates
succeeds and is true exactly when `v` is strictly equal to the instance label
of its role, and `isTestOrIntegration()` succeeds and is true exactly when
`isTest()` or `isIntegration()` is. -/
theorem environment_predicates (call : FnTable) (self : ConfigInstance) (v : JsValue)
    (h : get call self "NODE_ENV" none = Except.ok v) :
    (∃ b, isProduction call self = Except.ok b ∧ (b = true ↔ v = self.PRODUCTION)) ∧
    (∃ b, isDevelopment call self = Except.ok b ∧ (b = true ↔ v = self.DEVELOPMENT)) ∧
    (∃ t i r, isTest call self = Except.ok t ∧ (t = true ↔ v = self.TEST) ∧
      isIntegration call self = Except.ok i ∧ (i = true ↔ v = self.INTEGRATION) ∧
      isTestOrIntegration call self = Except.ok r ∧ (r = true ↔ t = true ∨ i = true)) := by
  refine ⟨⟨_, nodeEnvIs_of_ok call self _ v h, by simp⟩,
    ⟨_, nodeEnvIs_of_ok call self _ v h, by simp⟩, ?_⟩
  refine ⟨decide (v = self.TEST), decide (v = self.INTEGRATION),
    decide (v = self.TEST) || decide (v = self.INTEGRATION),
    nodeEnvIs_of_ok call self _ v h, by simp, nodeEnvIs_of_ok call self _ v h, by simp, ?_,
    by simp⟩
  have ht : isTest call self = Except.ok (decide (v = self.TEST)) :=
    nodeEnvIs_of_ok call self _ v h
  have hi : isIntegration call self = Except.ok (decide (v = self.INTEGRATION)) :=
    nodeEnvIs_of_ok call self _ v h
  unfold isTestOrIntegration
  rw [ht]
  by_cases hv : v = self.TEST
  · simp [hv]
  · simp [hv, hi]

/-- Witness of C12: with `NODE_ENV=integration` on the test configuration,
`isIntegration()` and `isTestOrIntegration()` are true and `isTest()` is false. -/
theorem environment_predicates_witness :
    ∃ c,
      Config asciiUpper DEFAULT_CONFIG (some [("NODE_ENV", "integration")]) none
        = Except.ok c ∧
      ∃ t i r,
        isTest noFunctions c = Except.ok t ∧
        (t = true ↔ JsValue.str "integration" = c.TEST) ∧
        isIntegration noFunctions c = Except.ok i ∧
        (i = true ↔ JsValue.str "integration" = c.INTEGRATION) ∧
        isTestOrIntegration noFunctions c = Except.ok r ∧
        (r = true ↔ t = true ∨ i = true) :=
  ⟨_, rfl,
   (environment_predicates noFunctions _ (JsValue.str "integration") (by decide)).2.2⟩

/-- C13 as stated fails on `{environments: {PRODUCTION: 'prod'}}`: the
`environments` object of the caller replaces the default one whole, so the
three roles it leaves out read as `undefined`, not as the documented defaults. -/
theorem partial_environments_undefined :
    (Config asciiUpper DEFAULT_CONFIG none (some onlyProductionLabel)).map
        ConfigInstance.PRODUCTION
      = Except.ok (JsValue.str "prod") ∧
    (Config asciiUpper DEFAULT_CONFIG none (some onlyProductionLabel)).map
        ConfigInstance.DEVELOPMENT
      = Except.ok JsValue.undefined ∧
    (Config asciiUpper DEFAULT_CONFIG none (some onlyProductionLabel)).map
        ConfigInstance.DEVELOPMENT
      ≠ Except.ok (JsValue.str DEVELOPMENT) ∧
    (Config asciiUpper DEFAULT_CONFIG none (some onlyProductionLabel)).map
        ConfigInstance.TEST
      ≠ Except.ok (JsValue.str TEST) ∧
    (Config asciiUpper DEFAULT_CONFIG none (some onlyProductionLabel)).map
        ConfigInstance.INTEGRATION
      ≠ Except.ok (JsValue.str INTEGRATION) := by
  decide

/-- C13 amended: on a built Config, when the options have an `environments`
object, each of the four instance labels is what that object holds for its
role (`undefined` for a role it leaves out); when the options are missing or
have no `environments` property, the four labels are `'production'`,
`'development'`, `'test'` and `'integration'`. -/
theorem role_labels (toUpperCase : String → String) (values : Obj JsValue)
    (env : Option (Obj String)) (options : Option Options)
    (c : ConfigInstance) (hc : Config toUpperCase values env options = Except.ok c) :
    (∀ e, options.bind Options.environments = some e →
      c.PRODUCTION = e.PRODUCTION ∧
      c.DEVELOPMENT = e.DEVELOPMENT ∧
      c.TEST = e.TEST ∧
      c.INTEGRATION = e.INTEGRATION) ∧
    (options.bind Options.environments = none →
      c.PRODUCTION = JsValue.str "production" ∧
      c.DEVELOPMENT = JsValue.str "development" ∧
      c.TEST = JsValue.str "test" ∧
      c.INTEGRATION = JsValue.str "integration") := by
  obtain ⟨_, l1, l2, l3, l4, _⟩ := Config_fields toUpperCase values env options c hc
  rw [l1, l2, l3, l4]
  constructor
  · intro e he
    simp [defaults, he]
  · intro he
    simp [defaults, he, configDefaults, PRODUCTION, DEVELOPMENT, TEST, INTEGRATION]

/-- Witness of amended C13: the test configuration, built without options, has
the four default labels, and a full `environments` object is taken as given. -/
theorem role_labels_witness :
    (∃ c,
      Config asciiUpper DEFAULT_CONFIG none none = Except.ok c ∧
      c.PRODUCTION = JsValue.str "production" ∧
      c.DEVELOPMENT = JsValue.str "development" ∧
      c.TEST = JsValue.str "test" ∧
      c.INTEGRATION = JsValue.str "integration") ∧
    (∃ c,
      Config asciiUpper DEFAULT_CONFIG none
        (some (Options.mk none none
          (some (Environments.mk (JsValue.str "prod") (JsValue.str "dev")
            (JsValue.str "ci") (JsValue.str "int"))) none)) = Except.ok c ∧
      c.PRODUCTION = JsValue.str "prod" ∧
      c.DEVELOPMENT = JsValue.str "dev" ∧
      c.TEST = JsValue.str "ci" ∧
      c.INTEGRATION = JsValue.str "int") :=
  ⟨⟨_, rfl, (role_labels asciiUpper DEFAULT_CONFIG none none _ rfl).2 (by decide)⟩,
   ⟨_, rfl,
    (role_labels asciiUpper DEFAULT_CONFIG none
      (some (Options.mk none none
        (some (Environments.mk (JsValue.str "prod") (JsValue.str "dev")
          (JsValue.str "ci") (JsValue.str "int"))) none)) _ rfl).1
      (Environments.mk (JsValue.str "prod") (JsValue.str "dev")
        (JsValue.str "ci") (JsValue.str "int")) (by decide)⟩⟩

/-- C14 as stated fails for the version option `''`: the empty string is a
string, and `version()` fails on it instead of returning it. -/
theorem empty_version_fails :
    (Config asciiUpper DEFAULT_CONFIG none
        (some (Options.mk none none none (some "")))).bind version
      = Except.error "Version must be provided when instantiating Config" ∧
    (Config asciiUpper DEFAULT_CONFIG none
        (some (Options.mk none none none (some "")))).bind version
      ≠ Except.ok "" := by
  decide

/-- C14 amended: on a built Config, `version()` returns the version option
when it is a non-empty string, and fails when the options are missing, have no
version, or have the empty string as version. -/
theorem version_accessor (toUpperCase : String → String) (values : Obj JsValue)
    (env : Option (Obj String)) (options : Option Options)
    (c : ConfigInstance) (hc : Config toUpperCase values env options = Except.ok c) :
    (∀ v, options.bind Options.version = some v → v ≠ "" →
      version c = Except.ok v) ∧
    (options.bind Options.version = none ∨ options.bind Options.version = some "" →
      version c = Except.error "Version must be provided when instantiating Config") := by
  obtain ⟨lo, _⟩ := Config_fields toUpperCase values env options c hc
  constructor
  · intro v hv hne
    simp [version, lo, defaults, hv, hne]
  · intro h
    rcases h with h | h <;> simp [version, lo, defaults, h]

/-- Witness of amended C14: version `'1.2.3'` is returned, and a Config built
without options has no version. -/
theorem version_accessor_witness :
    (∃ c,
      Config asciiUpper DEFAULT_CONFIG none
        (some (Options.mk none none none (some "1.2.3"))) = Except.ok c ∧
      version c = Except.ok "1.2.3") ∧
    (∃ c,
      Config asciiUpper DEFAULT_CONFIG none none = Except.ok c ∧
      version c = Except.error "Version must be provided when instantiating Config") :=
  ⟨⟨_, rfl,
    (version_accessor asciiUpper DEFAULT_CONFIG none
      (some (Options.mk none none none (some "1.2.3"))) _ rfl).1 "1.2.3"
      (by decide) (by decide)⟩,
   ⟨_, rfl,
    (version_accessor asciiUpper DEFAULT_CONFIG none none _ rfl).2 (Or.inl (by decide))⟩⟩

/-- C15: on a built Config, the `prefix` property is the prefix of the options
exactly as written (whatever the upper-casing function is), the empty string
when the options are missing or have no prefix, and it is the same after any
sequence of `get`, predicate and `version` calls. -/
theorem prefix_property (toUpperCase : String → String) (call : FnTable)
    (values : Obj JsValue) (env : Option (Obj String)) (options : Option Options)
    (c : ConfigInstance) (hc : Config toUpperCase values env options = Except.ok c)
    (calls : List Call) :
    (∀ p, options.bind Options.pfx = some p → c.pfx = p) ∧
    (options.bind Options.pfx = none → c.pfx = "") ∧
    (performAll call c calls).pfx = c.pfx := by
  obtain ⟨_, _, _, _, _, lp⟩ := Config_fields toUpperCase values env options c hc
  refine ⟨?_, ?_, ?_⟩
  · intro p hp
    simp [lp, defaults, hp]
  · intro hp
    simp [lp, defaults, hp, configDefaults]
  · rw [performAll_eq]

/-- Witness of C15: the test prefix `'DOGE'`, a lower-case prefix that stays
lower-case, and the prefix after a failing `get`, a predicate and `version()`. -/
theorem prefix_property_witness :
    (∃ c,
      Config asciiUpper DEFAULT_CONFIG (some [])
        (some (Options.mk (some "DOGE") none none none)) = Except.ok c ∧
      c.pfx = "DOGE") ∧
    (∃ c,
      Config asciiUpper DEFAULT_CONFIG (some [])
        (some (Options.mk (some "myapp") none none none)) = Except.ok c ∧
      c.pfx = "myapp" ∧
      (performAll noFunctions c
        [Call.get "MISSING_VALUE" none, Call.isProduction, Call.version]).pfx = c.pfx) ∧
    (∃ c,
      Config asciiUpper DEFAULT_CONFIG none none = Except.ok c ∧
      c.pfx = "") :=
  ⟨⟨_, rfl,
    (prefix_property asciiUpper noFunctions DEFAULT_CONFIG (some [])
      (some (Options.mk (some "DOGE") none none none)) _ rfl []).1 "DOGE" (by decide)⟩,
   ⟨_, rfl,
    (prefix_property asciiUpper noFunctions DEFAULT_CONFIG (some [])
      (some (Options.mk (some "myapp") none none none)) _ rfl []).1 "myapp" (by decide),
    (prefix_property asciiUpper noFunctions DEFAULT_CONFIG (some [])
      (some (Options.mk (some "myapp") none none none)) _ rfl
      [Call.get "MISSING_VALUE" none, Call.isProduction, Call.version]).2.2⟩,
   ⟨_, rfl,
    (prefix_property asciiUpper noFunctions DEFAULT_CONFIG none none _ rfl []).2.1
      (by decide)⟩⟩

/-- C16 as stated fails twice.  With the caller's list `['__proto__']` the key
is an element of the list in effect, yet it is no key of the resolved mapping
and `get` throws the missing-key error.  And a key of the defaults mapping
whose default is a function fails with that very error when the function
throws it. -/
theorem domain_not_exact :
    "__proto__" ∈ unprefixedInEffect (some (Options.mk none (some ["__proto__"]) none none)) ∧
    (Config asciiUpper [] (some [])
        (some (Options.mk none (some ["__proto__"]) none none))).bind
        (fun c => get noFunctions c "__proto__" none)
      = Except.error "Missing config key: __proto__" ∧
    "X" ∈ keys [("X", JsValue.fn 0)] ∧
    (Config asciiUpper [("X", JsValue.fn 0)] (some []) none).bind
        (fun c => get throwingFunctions c "X" none)
      = Except.error ("Missing config key: " ++ "X") := by
  decide

/-- C16 amended: on a built Config and for a key `k` other than `__proto__`,
`k` is a key of the resolved mapping exactly when it is a key of the defaults
mapping or an element of the unprefixed list in effect; `get(k)` without a
fallback fails with the missing-key error exactly when `k` is neither, or the
value stored under `k` is a function whose call fails with that error; and the
environment does not change whether `k` is a key of the resolved mapping. -/
theorem exact_domain (toUpperCase : String → String) (call : FnTable)
    (values : Obj JsValue) (env : Option (Obj String)) (options : Option Options)
    (c : ConfigInstance) (hc : Config toUpperCase values env options = Except.ok c)
    (k : String) (hn : k ≠ "__proto__") :
    (has c.config k = true ↔ k ∈ keys values ∨ k ∈ unprefixedInEffect options) ∧
    (get call c k none = Except.error ("Missing config key: " ++ k) ↔
      (k ∉ keys values ∧ k ∉ unprefixedInEffect options) ∨
      (∃ f, List.lookup k c.config = some (JsValue.fn f) ∧
        call f c = Except.error ("Missing config key: " ++ k))) ∧
    (∀ (env2 : Option (Obj String)) (c2 : ConfigInstance),
      Config toUpperCase values env2 options = Except.ok c2 →
      has c2.config k = has c.config k) := by
  have hdom : has c.config k = true ↔ k ∈ keys values ∨ k ∈ unprefixedInEffect options := by
    rw [← defaults_unprefixed]
    exact has_config_iff toUpperCase values env options c hc k hn
  refine ⟨hdom, ?_, ?_⟩
  · cases hl : List.lookup k c.config with
    | none =>
      have hh : ¬ (k ∈ keys values ∨ k ∈ unprefixedInEffect options) := by
        rw [← hdom]
        simp [has, hl]
      rw [get_of_absent call c k hl]
      constructor
      · intro _
        exact Or.inl ⟨fun h => hh (Or.inl h), fun h => hh (Or.inr h)⟩
      · intro _
        rfl
    | some v =>
      have hh : k ∈ keys values ∨ k ∈ unprefixedInEffect options := by
        rw [← hdom]
        simp [has, hl]
      rw [get_of_present call c k none v hl]
      constructor
      · intro hg
        cases v with
        | fn f => exact Or.inr ⟨f, rfl, hg⟩
        | _ => simp at hg
      · intro h
        rcases h with ⟨h1, h2⟩ | ⟨f, hf, hcall⟩
        · rcases hh with h | h
          · exact absurd h h1
          · exact absurd h h2
        · have hv : v = JsValue.fn f := Option.some.inj hf
          subst hv
          exact hcall
  · intro env2 c2 hc2
    rw [Bool.eq_iff_iff, has_config_iff toUpperCase values env2 options c2 hc2 k hn,
      has_config_iff toUpperCase values env options c hc k hn]

/-- Witness of amended C16: `SECRET` is set in the environment but declared
neither in the defaults mapping nor in the unprefixed list, and `get('SECRET')`
fails; `PORT`, of the default list, is a key although set nowhere; and under
the caller's list `['UNPREFIXED']` the key `UNPREFIXED` is present and `PORT`
is not. -/
theorem exact_domain_witness :
    (∃ c,
      Config asciiUpper [] (some [("SECRET", "x")]) none = Except.ok c ∧
      get noFunctions c "SECRET" none = Except.error "Missing config key: SECRET" ∧
      has c.config "PORT" = true) ∧
    (∃ c,
      Config asciiUpper [] (some [("PORT", "8080")])
        (some (Options.mk none (some ["UNPREFIXED"]) none none)) = Except.ok c ∧
      has c.config "UNPREFIXED" = true ∧
      get noFunctions c "PORT" none = Except.error "Missing config key: PORT") :=
  ⟨⟨_, rfl,
    (exact_domain asciiUpper noFunctions [] (some [("SECRET", "x")]) none _ rfl
      "SECRET" (by decide)).2.1.2 (Or.inl (by decide)),
    (exact_domain asciiUpper noFunctions [] (some [("SECRET", "x")]) none _ rfl
      "PORT" (by decide)).1.2 (Or.inr (by decide))⟩,
   ⟨_, rfl,
    (exact_domain asciiUpper noFunctions [] (some [("PORT", "8080")])
      (some (Options.mk none (some ["UNPREFIXED"]) none none)) _ rfl
      "UNPREFIXED" (by decide)).1.2 (Or.inr (by decide)),
    (exact_domain asciiUpper noFunctions [] (some [("PORT", "8080")])
      (some (Options.mk none (some ["UNPREFIXED"]) none none)) _ rfl
      "PORT" (by decide)).2.1.2 (Or.inl (by decide))⟩⟩

/-- C17: for a key of the resolved mapping, `get(k, fb)` is `get(k)` for every
fallback `fb`, also when the stored value is `null`. -/
theorem fallback_ignored_when_present (call : FnTable) (self : ConfigInstance)
    (k : String) (fb : JsValue) (h : has self.config k = true) :
    get call self k (some fb) = get call self k none := by
  unfold has at h
  obtain ⟨v, hv⟩ := Option.isSome_iff_exists.1 h
  rw [get_of_present _ _ _ _ _ hv, get_of_present _ _ _ _ _ hv]

/-- Witness of C17: with default options, empty defaults and an empty
environment `get('NODE_ENV', 'development')` is `null`, and so is `get` with a
fallback on a key whose default is `null`. -/
theorem fallback_ignored_when_present_witness :
    (∃ c,
      Config asciiUpper [] (some []) none = Except.ok c ∧
      get noFunctions c "NODE_ENV" (some (JsValue.str "development"))
        = Except.ok JsValue.null) ∧
    (∃ c,
      Config asciiUpper DEFAULT_CONFIG (some []) none = Except.ok c ∧
      get noFunctions c "IS_TRUE" (some (JsValue.bool true)) = Except.ok JsValue.null) :=
  ⟨⟨_, rfl,
    (fallback_ignored_when_present noFunctions _
      "NODE_ENV" (JsValue.str "development") (by decide)).trans (by decide)⟩,
   ⟨_, rfl,
    (fallback_ignored_when_present noFunctions _
      "IS_TRUE" (JsValue.bool true) (by decide)).trans (by decide)⟩⟩

/-- C18 as stated fails for a lazy default: under prefix `a` the key `A_B` of
`chainedDefaults` is a defaults key outside the unprefixed list, the two
environments differ only in the entry under the bare name `A_B`, and
`get('A_B')` is `'x'` in one and `'y'` in the other, because the function
reads `B`, whose prefixed name is `A_B`.  It fails at the key `__proto__` too:
the environment has the bare entry and not the prefixed one, yet `get` throws
instead of returning the default. -/
theorem bare_entry_reaches_lazy_value :
    "A_B" ∈ keys chainedDefaults ∧
    "A_B" ∉ (defaults (some (Options.mk (some "a") none none none)) configDefaults).unprefixed ∧
    (Config asciiUpper chainedDefaults (some [])
        (some (Options.mk (some "a") none none none))).bind
        (fun c => get sampleFunctions c "A_B" none)
      = Except.ok (JsValue.str "x") ∧
    (Config asciiUpper chainedDefaults (some [("A_B", "y")])
        (some (Options.mk (some "a") none none none))).bind
        (fun c => get sampleFunctions c "A_B" none)
      = Except.ok (JsValue.str "y") ∧
    (Config asciiUpper chainedDefaults (some [])
        (some (Options.mk (some "a") none none none))).bind
        (fun c => get sampleFunctions c "A_B" none)
      ≠ (Config asciiUpper chainedDefaults (some [("A_B", "y")])
        (some (Options.mk (some "a") none none none))).bind
        (fun c => get sampleFunctions c "A_B" none) ∧
    (Config asciiUpper [("__proto__", JsValue.str "d")] (some [("__proto__", "leak")])
        (some (Options.mk (some "a") none none none))).bind
        (fun c => get noFunctions c "__proto__" none)
      = Except.error "Missing config key: __proto__" := by
  decide

/-- C18 amended: with a non-empty prefix `p`, for a key `k` other than
`__proto__` of the defaults mapping outside the unprefixed list and two
environments that agree on every name but `k`, the value stored under `k` is
the same in the two built Configs; when the default of `k` is not a function,
`get(k)` is the same in both, and it is the default of `k` when the
environment has no entry under `upper(p) + "_" + k`. -/
theorem bare_entry_ignored (toUpperCase : String → String) (call : FnTable)
    (values : Obj JsValue) (env1 env2 : Option (Obj String)) (options : Option Options)
    (c1 c2 : ConfigInstance)
    (hc1 : Config toUpperCase values env1 options = Except.ok c1)
    (hc2 : Config toUpperCase values env2 options = Except.ok c2)
    (p k : String)
    (hp : (defaults options configDefaults).pfx = p) (hne : p ≠ "")
    (hk : k ∈ keys values) (hn : k ≠ "__proto__")
    (hu : k ∉ (defaults options configDefaults).unprefixed)
    (hagree : ∀ name, name ≠ k →
      List.lookup name (env1.getD []) = List.lookup name (env2.getD [])) :
    List.lookup k c1.config = List.lookup k c2.config ∧
    ((∀ f, getProp values k ≠ JsValue.fn f) →
      get call c1 k none = get call c2 k none ∧
      (List.lookup (toUpperCase p ++ "_" ++ k) (env1.getD []) = none →
        get call c1 k none = Except.ok (getProp values k))) := by
  have hl : prefixKey toUpperCase (defaults options configDefaults) k
      = toUpperCase p ++ "_" ++ k := by
    rw [prefixKey_eq_lookupName]
    simp [lookupName, hp, hne, hu]
  have hsame : defaultValue toUpperCase (defaults options configDefaults) values
        (env1.getD []) k
      = defaultValue toUpperCase (defaults options configDefaults) values (env2.getD []) k := by
    apply defaultValue_congr
    rw [hl]
    exact hagree _ (prefixed_ne_bare _ _)
  have h1 : List.lookup k c1.config
      = some (defaultValue toUpperCase (defaults options configDefaults) values
          (env1.getD []) k) := by
    rw [lookup_config toUpperCase values env1 options c1 hc1 k hn, if_pos hk]
  have h2 : List.lookup k c2.config
      = some (defaultValue toUpperCase (defaults options configDefaults) values
          (env1.getD []) k) := by
    rw [lookup_config toUpperCase values env2 options c2 hc2 k hn, if_pos hk, hsame]
  refine ⟨by rw [h1, h2], ?_⟩
  intro hf
  have hv := defaultValue_ne_fn toUpperCase (defaults options configDefaults) values
    (env1.getD []) k hf
  refine ⟨by rw [get_of_lookup _ _ _ _ _ h1 hv, get_of_lookup _ _ _ _ _ h2 hv], ?_⟩
  intro he
  rw [get_of_lookup _ _ _ _ _ h1 hv, defaultValue_of_no_env]
  rw [hl]
  exact he

/-- Witness of amended C18: under prefix `MYAPP` the bare entry
`DEFAULT_VALUE=leak` changes nothing, `get('DEFAULT_VALUE')` is the default. -/
theorem bare_entry_ignored_witness :
    ∃ c1 c2,
      Config asciiUpper DEFAULT_CONFIG (some [("DEFAULT_VALUE", "leak")]) (some myappOptions)
        = Except.ok c1 ∧
      Config asciiUpper DEFAULT_CONFIG (some []) (some myappOptions) = Except.ok c2 ∧
      get noFunctions c1 "DEFAULT_VALUE" none = get noFunctions c2 "DEFAULT_VALUE" none ∧
      get noFunctions c1 "DEFAULT_VALUE" none = Except.ok (JsValue.str "default") :=
  ⟨_, _, rfl, rfl,
   ((bare_entry_ignored asciiUpper noFunctions DEFAULT_CONFIG
      (some [("DEFAULT_VALUE", "leak")]) (some []) (some myappOptions) _ _ rfl rfl
      "MYAPP" "DEFAULT_VALUE"
      (by decide) (by decide) (by decide) (by decide) (by decide)
      (by
        intro name hname
        have hb : (name == "DEFAULT_VALUE") = false := by simpa using hname
        simp [List.lookup, hb])).2
      (by intro f hf; cases hf)).1,
   ((bare_entry_ignored asciiUpper noFunctions DEFAULT_CONFIG
      (some [("DEFAULT_VALUE", "leak")]) (some []) (some myappOptions) _ _ rfl rfl
      "MYAPP" "DEFAULT_VALUE"
      (by decide) (by decide) (by decide) (by decide) (by decide)
      (by
        intro name hname
        have hb : (name == "DEFAULT_VALUE") = false := by simpa using hname
        simp [List.lookup, hb])).2
      (by intro f hf; cases hf)).2 (by decide)⟩

/-- C19: a Config built without an `environments` option has at most one of
`isProduction()`, `isDevelopment()`, `isTest()`, `isIntegration()` true; and
with the default unprefixed list, when `NODE_ENV` is in neither the
environment nor the defaults mapping, the four of them and
`isTestOrIntegration()` are false. -/
theorem predicates_exclusive (toUpperCase : String → String) (call : FnTable)
    (values : Obj JsValue) (env : Option (Obj String)) (options : Option Options)
    (c : ConfigInstance) (hc : Config toUpperCase values env options = Except.ok c)
    (he : options.bind Options.environments = none) :
    ([isProduction call c, isDevelopment call c, isTest call c,
      isIntegration call c].filter
        (fun r => decide (r = Except.ok true))).length ≤ 1 ∧
    (options.bind Options.unprefixed = none → "NODE_ENV" ∉ keys values →
      List.lookup "NODE_ENV" (env.getD []) = none →
      isProduction call c = Except.ok false ∧
      isDevelopment call c = Except.ok false ∧
      isTest call c = Except.ok false ∧
      isIntegration call c = Except.ok false ∧
      isTestOrIntegration call c = Except.ok false) := by
  obtain ⟨l1, l2, l3, l4⟩ := labels_of_no_environments toUpperCase values env options c hc he
  constructor
  · cases hg : get call c "NODE_ENV" none with
    | error e =>
      simp [isProduction, isDevelopment, isTest, isIntegration,
        nodeEnvIs_of_error _ _ _ e hg, List.filter]
    | ok v =>
      simp only [isProduction, isDevelopment, isTest, isIntegration,
        nodeEnvIs_of_ok _ _ _ v hg, l1, l2, l3, l4]
      by_cases h1 : v = JsValue.str "production"
      · subst h1
        decide
      · by_cases h2 : v = JsValue.str "development"
        · subst h2
          decide
        · by_cases h3 : v = JsValue.str "test"
          · subst h3
            decide
          · by_cases h4 : v = JsValue.str "integration"
            · subst h4
              decide
            · simp [h1, h2, h3, h4, List.filter]
  · intro hu hk hn
    have hU : "NODE_ENV" ∈ (defaults options configDefaults).unprefixed := by
      simp [defaults, hu, configDefaults]
    have hl : List.lookup "NODE_ENV" c.config = some JsValue.null := by
      rw [lookup_config toUpperCase values env options c hc "NODE_ENV" (by decide),
        if_neg hk, if_pos hU]
      simp [envValue, hn]
    have hg : get call c "NODE_ENV" none = Except.ok JsValue.null :=
      get_of_lookup _ _ _ _ _ hl (by intro f; simp)
    have hp : isProduction call c = Except.ok false := by
      unfold isProduction
      rw [nodeEnvIs_of_ok _ _ _ _ hg, l1]
      rfl
    have hd : isDevelopment call c = Except.ok false := by
      unfold isDevelopment
      rw [nodeEnvIs_of_ok _ _ _ _ hg, l2]
      rfl
    have ht : isTest call c = Except.ok false := by
      unfold isTest
      rw [nodeEnvIs_of_ok _ _ _ _ hg, l3]
      rfl
    have hi : isIntegration call c = Except.ok false := by
      unfold isIntegration
      rw [nodeEnvIs_of_ok _ _ _ _ hg, l4]
      rfl
    refine ⟨hp, hd, ht, hi, ?_⟩
    unfold isTestOrIntegration
    rw [ht]
    exact hi

/-- Witness of C19: built from empty defaults and an empty environment without
options, the Config answers false to all five predicates. -/
theorem predicates_exclusive_witness :
    ∃ c,
      Config asciiUpper [] (some []) none = Except.ok c ∧
      isProduction noFunctions c = Except.ok false ∧
      isDevelopment noFunctions c = Except.ok false ∧
      isTest noFunctions c = Except.ok false ∧
      isIntegration noFunctions c = Except.ok false ∧
      isTestOrIntegration noFunctions c = Except.ok false :=
  ⟨_, rfl,
   (predicates_exclusive asciiUpper noFunctions [] (some []) none _ rfl (by decide)).2
    (by decide) (by decide) (by decide)⟩

end Environmentalist
